import Mathlib

/-!
Shallow embedding of the MPT circuit core of this repository
(src/mpt/src/mpt.rs, src/mpt/src/account_leaf_storage_codehash.rs,
src/mpt/src/leaf_value.rs) over an abstract field `F`.

A witness table is modelled as a record of column functions `ℕ → F`
(row index to cell value).  Every halo2 gate of `MPTConfig::configure`
is transcribed as a predicate `∀ i, <polynomial equations at row i>`,
with `Rotation::prev()` rendered as row `i` versus current row `i + 1`
and `Rotation(-17)` as row `i` versus current row `i + 17` (halo2
rotations wrap around the region; rows where a negative rotation would
wrap are exactly the rows where the gating fixed columns are zero in
any assigned table, so nothing of interest is lost).  A halo2 lookup
argument is rendered as: for every row, the tuple of input expressions
is a member of the table, where the table is a list of tuples that
contains the all-zero tuple (fixed table columns of halo2 default to
zero on unassigned rows, which is what makes a switched-off lookup
row acceptable).

The witness generation `MPTConfig::assign` is embedded as an
executable fold `assignMPT` over the witness row list, producing the
list of assigned rows.

Concrete witnesses are evaluated in the prime field `ZMod 65537`.
-/

namespace Mpt

/-- Modelled from the spec: the constants of param.rs, which is not under
src/.  A witness row is `[S-side RLP bytes][S-side 32-byte field][C-side
RLP bytes][C-side 32-byte field]` (spec section 6), so `LAYOUT_OFFSET = 2`
(two RLP cells before the 32 advice cells), `WITNESS_ROW_WIDTH = 68` and
the C side starts at the half width 34. -/
def LAYOUT_OFFSET : ℕ := 2

/-- Modelled from the spec: width of a witness row without the final
discriminant byte (2 + 32 cells per side, two sides). -/
def WITNESS_ROW_WIDTH : ℕ := 68

/-- Modelled from the spec: number of cells of a hash / value field. -/
def HASH_WIDTH : ℕ := 32

/-- Modelled from the spec: the hash lookup table has one accumulator
column and four word columns (spec section 3). -/
def KECCAK_INPUT_WIDTH : ℕ := 1

/-- Modelled from the spec: four packed 64-bit words per digest. -/
def KECCAK_OUTPUT_WIDTH : ℕ := 4

/-- Modelled from the spec: start of the S-side RLP bytes of a row. -/
def S_RLP_START : ℕ := 0

/-- Modelled from the spec: start of the S-side 32-byte field of a row. -/
def S_START : ℕ := 2

/-- Modelled from the spec: start of the C-side RLP bytes of a row. -/
def C_RLP_START : ℕ := 34

/-- Modelled from the spec: start of the C-side 32-byte field of a row. -/
def C_START : ℕ := 36

/-- Modelled from the spec: position of the first S-side RLP prefix byte
in a branch-init row.  The branch-init accumulator gate of mpt.rs reads
the S prefix from `s_advices[0..3]`, which `assign_row` fills from row
positions `LAYOUT_OFFSET + 0 ..`, and the same gate checks the value that
`assign` computes from `row[BRANCH_0_S_START ..]`; the two agree only
with `BRANCH_0_S_START = LAYOUT_OFFSET = 2`. -/
def BRANCH_0_S_START : ℕ := 2

/-- Modelled from the spec: position of the first C-side RLP prefix byte
in a branch-init row; the gate reads it from `s_advices[3..6]`, i.e. row
positions 5, 6, 7. -/
def BRANCH_0_C_START : ℕ := 5

/-- Modelled from the spec: position of the modified-child index in a
branch-init row (right after the two RLP prefix triples). -/
def BRANCH_0_KEY_POS : ℕ := 8

/-- A table of witness cells: one function `ℕ → F` per circuit column of
`MPTConfig` (row index to value).  `s_advices`, `c_advices` take the
column index (0..31) first, `s_keccak`, `c_keccak` the word index
(0..3) first.  The halo2 selector `q_enable` and the fixed columns
`q_not_first` and `not_first_level` are part of the table. -/
structure Table (F : Type) where
  q_enable : ℕ → F
  q_not_first : ℕ → F
  not_first_level : ℕ → F
  is_branch_init : ℕ → F
  is_branch_child : ℕ → F
  is_last_branch_child : ℕ → F
  is_leaf_s : ℕ → F
  is_leaf_c : ℕ → F
  is_leaf_key_nibbles : ℕ → F
  is_account_leaf_key_s : ℕ → F
  is_account_leaf_nonce_balance_s : ℕ → F
  is_account_leaf_storage_codehash_s : ℕ → F
  is_account_leaf_key_c : ℕ → F
  is_account_leaf_nonce_balance_c : ℕ → F
  is_account_leaf_storage_codehash_c : ℕ → F
  is_account_leaf_key_nibbles : ℕ → F
  node_index : ℕ → F
  is_modified : ℕ → F
  modified_node : ℕ → F
  s_rlp1 : ℕ → F
  s_rlp2 : ℕ → F
  c_rlp1 : ℕ → F
  c_rlp2 : ℕ → F
  s_advices : ℕ → ℕ → F
  c_advices : ℕ → ℕ → F
  s_keccak : ℕ → ℕ → F
  c_keccak : ℕ → ℕ → F
  branch_acc_s : ℕ → F
  branch_mult_s : ℕ → F
  branch_acc_c : ℕ → F
  branch_mult_c : ℕ → F
  key_rlc : ℕ → F
  key_rlc_mult : ℕ → F

variable {F : Type} [Field F]

/-- The gate named "general constraints" in `MPTConfig::configure`
(boolean checks on every row-type flag; S = C off the modified path;
booleanness of `is_modified` and `is_modified = 1` forcing
`node_index = modified_node`), at row `i`. -/
abbrev generalGateAt (T : Table F) (i : ℕ) : Prop :=
  T.q_enable i * (T.is_branch_init i * (1 - T.is_branch_init i)) = 0 ∧
  T.q_enable i * (T.is_branch_child i * (1 - T.is_branch_child i)) = 0 ∧
  T.q_enable i * (T.is_last_branch_child i * (1 - T.is_last_branch_child i)) = 0 ∧
  T.q_enable i * (T.is_leaf_s i * (1 - T.is_leaf_s i)) = 0 ∧
  T.q_enable i * (T.is_leaf_c i * (1 - T.is_leaf_c i)) = 0 ∧
  T.q_enable i * (T.is_leaf_key_nibbles i * (1 - T.is_leaf_key_nibbles i)) = 0 ∧
  T.q_enable i * (T.is_account_leaf_key_s i * (1 - T.is_account_leaf_key_s i)) = 0 ∧
  T.q_enable i * (T.is_account_leaf_nonce_balance_s i * (1 - T.is_account_leaf_nonce_balance_s i)) = 0 ∧
  T.q_enable i * (T.is_account_leaf_storage_codehash_s i * (1 - T.is_account_leaf_storage_codehash_s i)) = 0 ∧
  T.q_enable i * (T.is_account_leaf_key_c i * (1 - T.is_account_leaf_key_c i)) = 0 ∧
  T.q_enable i * (T.is_account_leaf_nonce_balance_c i * (1 - T.is_account_leaf_nonce_balance_c i)) = 0 ∧
  T.q_enable i * (T.is_account_leaf_storage_codehash_c i * (1 - T.is_account_leaf_storage_codehash_c i)) = 0 ∧
  T.q_enable i * (T.is_account_leaf_key_nibbles i * (1 - T.is_account_leaf_key_nibbles i)) = 0 ∧
  T.q_enable i * T.is_branch_child i * (T.s_rlp1 i - T.c_rlp1 i) *
      (T.node_index i - T.modified_node i) = 0 ∧
  T.q_enable i * T.is_branch_child i * (T.s_rlp2 i - T.c_rlp2 i) *
      (T.node_index i - T.modified_node i) = 0 ∧
  T.q_enable i * (T.is_modified i * (1 - T.is_modified i)) = 0 ∧
  T.q_enable i * T.is_branch_child i * T.is_modified i *
      (T.node_index i - T.modified_node i) = 0 ∧
  ∀ k < 32, T.q_enable i * T.is_branch_child i *
      (T.s_advices k i - T.c_advices k i) *
      (T.node_index i - T.modified_node i) = 0

/-- All rows of the "general constraints" gate. -/
def generalGate (T : Table F) : Prop := ∀ i, generalGateAt T i

/-- The gate named "branch children" in `MPTConfig::configure`, with the
current row rendered as `i + 1` (so `Rotation::prev()` is row `i`) for
the child-sequencing constraints, and as `i + 17` (so `Rotation(-17)` is
row `i`) for the two `not_first_level`-gated `key_rlc` constraints.
`rkey` is the `key_rlc_r` challenge scalar fixed at configure time. -/
abbrev branchChildrenGateAt (T : Table F) (rkey : F) (i : ℕ) : Prop :=
  T.q_not_first (i+1) * T.is_branch_child (i+1) *
      (T.is_branch_child i - 1) * (T.is_branch_init i - 1) = 0 ∧
  T.q_not_first (i+1) * T.is_branch_init i * (T.is_branch_child (i+1) - 1) = 0 ∧
  T.q_not_first (i+1) * T.is_branch_init i * T.node_index (i+1) = 0 ∧
  T.q_not_first (i+1) * (1 - T.is_branch_init i) *
      (T.is_branch_child i - T.is_branch_child (i+1)) *
      (T.node_index i - 15) = 0 ∧
  T.q_not_first (i+1) * T.is_last_branch_child (i+1) * (T.node_index (i+1) - 15) = 0 ∧
  T.q_not_first (i+1) * (1 - T.is_branch_init i) *
      (T.is_last_branch_child i - 1) *
      (T.is_branch_child i - T.is_branch_child (i+1)) = 0 ∧
  T.q_not_first (i+1) * T.is_branch_child (i+1) * T.node_index (i+1) *
      (T.node_index (i+1) - T.node_index i - 1) = 0 ∧
  T.q_not_first (i+1) * T.is_branch_child (i+1) * T.node_index (i+1) *
      (T.modified_node (i+1) - T.modified_node i) = 0 ∧
  T.not_first_level (i+17) * T.is_branch_init (i+16) *
      (T.key_rlc (i+17) - T.key_rlc i -
        T.modified_node (i+17) * T.key_rlc_mult i) = 0 ∧
  T.not_first_level (i+17) * T.is_branch_init (i+16) *
      (T.key_rlc_mult (i+17) - T.key_rlc_mult i * rkey) = 0 ∧
  T.q_not_first (i+1) * (1 - T.not_first_level (i+1)) * T.is_branch_init i *
      (T.key_rlc (i+1) - T.modified_node (i+1)) = 0 ∧
  T.q_not_first (i+1) * (1 - T.not_first_level (i+1)) * T.is_branch_init i *
      (T.key_rlc_mult (i+1) - 1 * rkey) = 0

/-- All rows of the "branch children" gate. -/
def branchChildrenGate (T : Table F) (rkey : F) : Prop := ∀ i, branchChildrenGateAt T rkey i

/-- The gate named "branch init accumulator" in `MPTConfig::configure` at
row `i`: on a branch-init row, under the two-RLP-byte indicator (held in
the `s_rlp1` cell) or the three-RLP-byte indicator (held in the `s_rlp2`
cell), the assigned `branch_acc_s` / `branch_acc_c` must equal the RLC of
the two or three prefix bytes, held in `s_advices[0..3]` for the S side
and `s_advices[3..6]` for the C side, and the multipliers must be `r^2`
or `r^3`.  `r` is `branch_acc_r` (set to one at configure time). -/
abbrev branchInitAccGateAt (T : Table F) (r : F) (i : ℕ) : Prop :=
  T.q_enable i * T.is_branch_init i * T.s_rlp1 i *
      ((T.s_advices 0 i + T.s_advices 1 i * r) - T.branch_acc_s i) = 0 ∧
  T.q_enable i * T.is_branch_init i * T.s_rlp1 i * (r * r - T.branch_mult_s i) = 0 ∧
  T.q_enable i * T.is_branch_init i * T.s_rlp1 i *
      ((T.s_advices 3 i + T.s_advices 4 i * r) - T.branch_acc_c i) = 0 ∧
  T.q_enable i * T.is_branch_init i * T.s_rlp1 i * (r * r - T.branch_mult_c i) = 0 ∧
  T.q_enable i * T.is_branch_init i * T.s_rlp2 i *
      ((T.s_advices 0 i + T.s_advices 1 i * r + T.s_advices 2 i * r * r) -
        T.branch_acc_s i) = 0 ∧
  T.q_enable i * T.is_branch_init i * T.s_rlp2 i * (r * r * r - T.branch_mult_s i) = 0 ∧
  T.q_enable i * T.is_branch_init i * T.s_rlp2 i *
      ((T.s_advices 3 i + T.s_advices 4 i * r + T.s_advices 5 i * r * r) -
        T.branch_acc_c i) = 0 ∧
  T.q_enable i * T.is_branch_init i * T.s_rlp2 i * (r * r * r - T.branch_mult_c i) = 0

/-- All rows of the "branch init accumulator" gate. -/
def branchInitAccGate (T : Table F) (r : F) : Prop := ∀ i, branchInitAccGateAt T r i

/-- The `into_words_expr` helper of `MPTConfig::configure`: word `w` of a
32-cell hash row, packed little endian in base 256. -/
abbrev branchWord (adv : ℕ → F) (w : ℕ) : F :=
  ∑ j ∈ Finset.range 8, adv (8 * w + j) * (256 : F) ^ j

/-- The gate named "keccak constraints" in `MPTConfig::configure`, with
the current row rendered as `i + 1`: `s_keccak` / `c_keccak` constant
across the 16 children of a branch, and on the `is_modified` child they
equal the packed words of that child's 32-byte field. -/
abbrev keccakGateAt (T : Table F) (i : ℕ) : Prop :=
  (∀ w < 4, T.q_not_first (i+1) * T.is_branch_child (i+1) * T.node_index (i+1) *
      (T.s_keccak w (i+1) - T.s_keccak w i) = 0) ∧
  (∀ w < 4, T.q_not_first (i+1) * T.is_branch_child (i+1) * T.node_index (i+1) *
      (T.c_keccak w (i+1) - T.c_keccak w i) = 0) ∧
  (∀ w < 4, T.q_not_first (i+1) * T.is_branch_child (i+1) * T.is_modified (i+1) *
      (branchWord (fun k => T.s_advices k (i+1)) w - T.s_keccak w (i+1)) = 0) ∧
  (∀ w < 4, T.q_not_first (i+1) * T.is_branch_child (i+1) * T.is_modified (i+1) *
      (branchWord (fun k => T.c_advices k (i+1)) w - T.c_keccak w (i+1)) = 0)

/-- All rows of the "keccak constraints" gate. -/
def keccakGate (T : Table F) : Prop := ∀ i, keccakGateAt T i

/-- One row of the hash lookup table: the byte-sequence RLC accumulator
followed by the four packed digest words. -/
abbrev KeccakTuple (F : Type) := F × F × F × F × F

/-- The input tuple of the S-side branch-hash lookup of
`MPTConfig::configure`, with the current (last-branch-child) row rendered
as `i + 17` so that `Rotation(-17)` reads the `s_keccak` words at row
`i`.  Every component is gated by `not_first_level * is_last_branch_child`
and the accumulator gets the branch ValueNode byte 128 times the running
multiplier added. -/
abbrev branchLookupSInput (T : Table F) (i : ℕ) : KeccakTuple F :=
  (T.not_first_level (i+17) * T.is_last_branch_child (i+17) *
      (T.branch_acc_s (i+17) + 128 * T.branch_mult_s (i+17)),
   T.not_first_level (i+17) * T.is_last_branch_child (i+17) * T.s_keccak 0 i,
   T.not_first_level (i+17) * T.is_last_branch_child (i+17) * T.s_keccak 1 i,
   T.not_first_level (i+17) * T.is_last_branch_child (i+17) * T.s_keccak 2 i,
   T.not_first_level (i+17) * T.is_last_branch_child (i+17) * T.s_keccak 3 i)

/-- The input tuple of the C-side branch-hash lookup. -/
abbrev branchLookupCInput (T : Table F) (i : ℕ) : KeccakTuple F :=
  (T.not_first_level (i+17) * T.is_last_branch_child (i+17) *
      (T.branch_acc_c (i+17) + 128 * T.branch_mult_c (i+17)),
   T.not_first_level (i+17) * T.is_last_branch_child (i+17) * T.c_keccak 0 i,
   T.not_first_level (i+17) * T.is_last_branch_child (i+17) * T.c_keccak 1 i,
   T.not_first_level (i+17) * T.is_last_branch_child (i+17) * T.c_keccak 2 i,
   T.not_first_level (i+17) * T.is_last_branch_child (i+17) * T.c_keccak 3 i)

/-- The S-side branch-hash lookup argument: at every row the gated input
tuple must be a row of the hash lookup table `tbl`. -/
def branchLookupS (T : Table F) (tbl : List (KeccakTuple F)) : Prop :=
  ∀ i, branchLookupSInput T i ∈ tbl

/-- The C-side branch-hash lookup argument. -/
def branchLookupC (T : Table F) (tbl : List (KeccakTuple F)) : Prop :=
  ∀ i, branchLookupCInput T i ∈ tbl

/-- One step of the running RLC fold used throughout the source: state is
(accumulator, multiplier); a byte `b` contributes `b * multiplier` and
the multiplier advances by `r`. -/
def rlcStep (r : F) (p : F × F) (b : F) : F × F := (p.1 + b * p.2, p.2 * r)

/-- Modelled from the spec: the branch accumulator chip (branch_acc.rs,
configured in mpt.rs over `s_rlp2`/`c_rlp2` and the 32 advice columns
with activation `q_not_first * is_branch_child` but not itself under
src/), per spec section 4.1: under the activation condition,
`acc(row) = acc(row-1) + Σ byte_i * mult(row-1) * r^i` over the
33-byte row and `mult(row) = mult(row-1) * r^33`. -/
abbrev branchAccChipAt (T : Table F) (r : F) (i : ℕ) : Prop :=
  (T.q_not_first (i+1) * T.is_branch_child (i+1)) *
      ((List.foldl (rlcStep r) (T.branch_acc_s i, T.branch_mult_s i)
        (T.s_rlp2 (i+1) :: (List.range 32).map fun k => T.s_advices k (i+1))).1 -
        T.branch_acc_s (i+1)) = 0 ∧
  (T.q_not_first (i+1) * T.is_branch_child (i+1)) *
      ((List.foldl (rlcStep r) (T.branch_acc_s i, T.branch_mult_s i)
        (T.s_rlp2 (i+1) :: (List.range 32).map fun k => T.s_advices k (i+1))).2 -
        T.branch_mult_s (i+1)) = 0 ∧
  (T.q_not_first (i+1) * T.is_branch_child (i+1)) *
      ((List.foldl (rlcStep r) (T.branch_acc_c i, T.branch_mult_c i)
        (T.c_rlp2 (i+1) :: (List.range 32).map fun k => T.c_advices k (i+1))).1 -
        T.branch_acc_c (i+1)) = 0 ∧
  (T.q_not_first (i+1) * T.is_branch_child (i+1)) *
      ((List.foldl (rlcStep r) (T.branch_acc_c i, T.branch_mult_c i)
        (T.c_rlp2 (i+1) :: (List.range 32).map fun k => T.c_advices k (i+1))).2 -
        T.branch_mult_c (i+1)) = 0

/-- All rows of the spec-modelled branch accumulator chip. -/
def branchAccChip (T : Table F) (r : F) : Prop := ∀ i, branchAccChipAt T r i

/-- All constraints that mpt.rs places on the table at row `i` (the four
gates, the two branch-hash lookups) together with the spec-modelled
branch accumulator chip.  The remaining chips configured by mpt.rs
(leaf_hash.rs, key_compr.rs, files not under src/) are activated by
`is_leaf_s` / `is_leaf_c` / `is_leaf_key_nibbles` and therefore constrain
nothing on tables in which those flags are identically zero. -/
abbrev SatisfiesAt (T : Table F) (tbl : List (KeccakTuple F)) (r rkey : F) (i : ℕ) : Prop :=
  generalGateAt T i ∧
  branchChildrenGateAt T rkey i ∧
  branchInitAccGateAt T r i ∧
  keccakGateAt T i ∧
  branchLookupSInput T i ∈ tbl ∧
  branchLookupCInput T i ∈ tbl ∧
  branchAccChipAt T r i

/-- A table satisfying every embedded constraint at every row. -/
def Satisfies (T : Table F) (tbl : List (KeccakTuple F)) (r rkey : F) : Prop :=
  ∀ i, SatisfiesAt T tbl r rkey i

/-- Columns handed to `AccountLeafStorageCodehashChip::configure`
(src/mpt/src/account_leaf_storage_codehash.rs): the activation
expression `q_enable`, the shared byte columns and the running
accumulator pair. -/
structure StorageCodehashCols (F : Type) where
  q_enable : ℕ → F
  s_rlp2 : ℕ → F
  c_rlp2 : ℕ → F
  s_advices : ℕ → ℕ → F
  c_advices : ℕ → ℕ → F
  acc : ℕ → F
  acc_mult : ℕ → F

/-- The expression built by the "account leaf storage codehash" gate with
the current row rendered as `i + 1`: starting from the previous row's
accumulator and multiplier, fold in `s_rlp2`, the 32 `s_advices` cells,
`c_rlp2` and the 32 `c_advices` cells of the current row, each advancing
the multiplier by `acc_r`. -/
def storageCodehashExpr (C : StorageCodehashCols F) (r : F) (i : ℕ) : F :=
  (List.foldl (rlcStep r) (C.acc i, C.acc_mult i)
    (C.s_rlp2 (i+1) ::
      (((List.range 32).map fun k => C.s_advices k (i+1)) ++
        C.c_rlp2 (i+1) :: (List.range 32).map fun k => C.c_advices k (i+1)))).1

/-- The gate of `AccountLeafStorageCodehashChip::configure`: at every row,
`q_enable * (expr - acc(cur)) = 0`. -/
def accountLeafStorageCodehashGate (C : StorageCodehashCols F) (r : F) : Prop :=
  ∀ i, C.q_enable (i+1) * (storageCodehashExpr C r i - C.acc (i+1)) = 0

/-- Columns handed to `LeafValueChip::configure`
(src/mpt/src/leaf_value.rs). -/
structure LeafValueCols (F : Type) where
  q_enable : ℕ → F
  s_rlp1 : ℕ → F
  s_rlp2 : ℕ → F
  s_advices : ℕ → ℕ → F
  sc_keccak : ℕ → ℕ → F
  acc : ℕ → F
  acc_mult : ℕ → F
  sel : ℕ → F
  is_branch_placeholder : ℕ → F

/-- The `rot_placeholder_branch` offset of `LeafValueChip::configure`:
18 rows back on the S side, 20 on the C side. -/
def rotPlaceholderBranch (is_s : Bool) : ℕ := if is_s then 18 else 20

/-- The leaf RLC recomputed by `LeafValueChip::configure` at row `cur`:
continue the accumulator of row `cur - 1` with `s_rlp1`, `s_rlp2` and
the 32 `s_advices` bytes of row `cur`. -/
def leafValueRlc (C : LeafValueCols F) (r : F) (cur : ℕ) : F :=
  (List.foldl (rlcStep r) (C.acc (cur - 1), C.acc_mult (cur - 1))
    (C.s_rlp1 cur :: C.s_rlp2 cur ::
      (List.range 32).map fun k => C.s_advices k cur)).1

/-- The input tuple of the leaf-value hash lookup, with the current row
rendered as `i + rotPlaceholderBranch is_s` so that the
`is_branch_placeholder` cell read at `Rotation(-18)` (S side) or
`Rotation(-20)` (C side) sits at row `i`; `sel` and the four
`sc_keccak` words are read at `Rotation(-4)`.  Every component is
multiplied by `q_enable`, `(1 - sel)` and `(1 - is_branch_placeholder)`. -/
abbrev leafValueInput (C : LeafValueCols F) (is_s : Bool) (r : F) (i : ℕ) : KeccakTuple F :=
  (C.q_enable (i + rotPlaceholderBranch is_s) *
      leafValueRlc C r (i + rotPlaceholderBranch is_s) *
      (1 - C.sel (i + rotPlaceholderBranch is_s - 4)) *
      (1 - C.is_branch_placeholder i),
   C.q_enable (i + rotPlaceholderBranch is_s) *
      C.sc_keccak 0 (i + rotPlaceholderBranch is_s - 4) *
      (1 - C.sel (i + rotPlaceholderBranch is_s - 4)) *
      (1 - C.is_branch_placeholder i),
   C.q_enable (i + rotPlaceholderBranch is_s) *
      C.sc_keccak 1 (i + rotPlaceholderBranch is_s - 4) *
      (1 - C.sel (i + rotPlaceholderBranch is_s - 4)) *
      (1 - C.is_branch_placeholder i),
   C.q_enable (i + rotPlaceholderBranch is_s) *
      C.sc_keccak 2 (i + rotPlaceholderBranch is_s - 4) *
      (1 - C.sel (i + rotPlaceholderBranch is_s - 4)) *
      (1 - C.is_branch_placeholder i),
   C.q_enable (i + rotPlaceholderBranch is_s) *
      C.sc_keccak 3 (i + rotPlaceholderBranch is_s - 4) *
      (1 - C.sel (i + rotPlaceholderBranch is_s - 4)) *
      (1 - C.is_branch_placeholder i))

/-- The `lookup_any` argument of `LeafValueChip::configure`: at every row
the gated input tuple must be in the hash lookup table. -/
def leafValueLookup (C : LeafValueCols F) (tbl : List (KeccakTuple F))
    (is_s : Bool) (r : F) : Prop :=
  ∀ i, leafValueInput C is_s r i ∈ tbl

/-- The per-instance configuration state built by `MPTConfig::configure`:
the two challenge scalars kept in the config struct. -/
structure MPTCfg (F : Type) where
  branch_acc_r : F
  key_rlc_r : F

/-- The scalar choices of `MPTConfig::configure` (mpt.rs lines 80-81):
`branch_acc_r` is fixed to one; `key_rlc_r` is the result of the local
`F::rand()` draw, modelled as the externally observed value `rand` that
the random number generator produced in that run. -/
def configure (rand : F) : MPTCfg F :=
  { branch_acc_r := 1, key_rlc_r := rand }

/-- The final (discriminant) byte of a witness row, `row[row.len() - 1]`. -/
def lastByte (row : List ℕ) : ℕ := row.getD (row.length - 1) 0

/-- The `into_words` helper of mpt.rs: split a byte list into groups of
eight and pack each group little endian into a 64-bit word. -/
def intoWords (message : List ℕ) : List ℕ :=
  (List.range (message.length / 8)).map fun i =>
    ∑ j ∈ Finset.range 8, message.getD (8 * i + j) 0 * 256 ^ j

/-- One assigned table row produced by `MPTConfig::assign`: the values
written into every column at one offset.  Cells that the walk leaves
unassigned are zero. -/
structure AssignedRow (F : Type) where
  not_first_level : F
  q_enable : F
  q_not_first : F
  is_branch_init : F
  is_branch_child : F
  is_last_branch_child : F
  is_leaf_s : F
  is_leaf_c : F
  is_leaf_key_nibbles : F
  is_account_leaf_key_s : F
  is_account_leaf_nonce_balance_s : F
  is_account_leaf_storage_codehash_s : F
  is_account_leaf_key_c : F
  is_account_leaf_nonce_balance_c : F
  is_account_leaf_storage_codehash_c : F
  is_account_leaf_key_nibbles : F
  node_index : F
  modified_node : F
  is_modified : F
  key_rlc : F
  key_rlc_mult : F
  s_rlp1 : F
  s_rlp2 : F
  s_advices : List F
  c_rlp1 : F
  c_rlp2 : F
  c_advices : List F
  s_keccak : List F
  c_keccak : List F
  branch_acc_s : F
  branch_mult_s : F
  branch_acc_c : F
  branch_mult_c : F
deriving DecidableEq

/-- An all-zero assigned row (used as the `getD` default). -/
def blankRow : AssignedRow F :=
  { not_first_level := 0
    q_enable := 0
    q_not_first := 0
    is_branch_init := 0
    is_branch_child := 0
    is_last_branch_child := 0
    is_leaf_s := 0
    is_leaf_c := 0
    is_leaf_key_nibbles := 0
    is_account_leaf_key_s := 0
    is_account_leaf_nonce_balance_s := 0
    is_account_leaf_storage_codehash_s := 0
    is_account_leaf_key_c := 0
    is_account_leaf_nonce_balance_c := 0
    is_account_leaf_storage_codehash_c := 0
    is_account_leaf_key_nibbles := 0
    node_index := 0
    modified_node := 0
    is_modified := 0
    key_rlc := 0
    key_rlc_mult := 0
    s_rlp1 := 0
    s_rlp2 := 0
    s_advices := []
    c_rlp1 := 0
    c_rlp2 := 0
    c_advices := []
    s_keccak := []
    c_keccak := []
    branch_acc_s := 0
    branch_mult_s := 0
    branch_acc_c := 0
    branch_mult_c := 0 }

/-- The `assign_row` helper of mpt.rs: write the row-type flags,
`node_index`, `modified_node`, `is_modified = (modified_node ==
node_index)`, zero the accumulator and key cells, and copy the row bytes
into the `s`/`c` columns (`get_val` reads zero past the end of a short
row, which is what `List.getD` does). -/
def assign_row (row : List ℕ)
    (is_branch_init is_branch_child is_last_branch_child : Bool)
    (node_index modified_node : ℕ)
    (is_leaf_s is_leaf_c is_leaf_key : Bool)
    (is_account_leaf_key_s is_account_leaf_nonce_balance_s
      is_account_leaf_storage_codehash_s is_account_leaf_key_c
      is_account_leaf_nonce_balance_c is_account_leaf_storage_codehash_c
      is_account_leaf_key_nibbles : Bool) : AssignedRow F :=
  { not_first_level := 0
    q_enable := 0
    q_not_first := 0
    is_branch_init := if is_branch_init then 1 else 0
    is_branch_child := if is_branch_child then 1 else 0
    is_last_branch_child := if is_last_branch_child then 1 else 0
    is_leaf_s := if is_leaf_s then 1 else 0
    is_leaf_c := if is_leaf_c then 1 else 0
    is_leaf_key_nibbles := if is_leaf_key then 1 else 0
    is_account_leaf_key_s := if is_account_leaf_key_s then 1 else 0
    is_account_leaf_nonce_balance_s := if is_account_leaf_nonce_balance_s then 1 else 0
    is_account_leaf_storage_codehash_s := if is_account_leaf_storage_codehash_s then 1 else 0
    is_account_leaf_key_c := if is_account_leaf_key_c then 1 else 0
    is_account_leaf_nonce_balance_c := if is_account_leaf_nonce_balance_c then 1 else 0
    is_account_leaf_storage_codehash_c := if is_account_leaf_storage_codehash_c then 1 else 0
    is_account_leaf_key_nibbles := if is_account_leaf_key_nibbles then 1 else 0
    node_index := (node_index : F)
    modified_node := (modified_node : F)
    is_modified := if modified_node = node_index then 1 else 0
    key_rlc := 0
    key_rlc_mult := 0
    s_rlp1 := ((row.getD 0 0 : ℕ) : F)
    s_rlp2 := ((row.getD 1 0 : ℕ) : F)
    s_advices := (List.range HASH_WIDTH).map fun k => ((row.getD (LAYOUT_OFFSET + k) 0 : ℕ) : F)
    c_rlp1 := ((row.getD (WITNESS_ROW_WIDTH / 2) 0 : ℕ) : F)
    c_rlp2 := ((row.getD (WITNESS_ROW_WIDTH / 2 + 1) 0 : ℕ) : F)
    c_advices := (List.range HASH_WIDTH).map fun k =>
      ((row.getD (WITNESS_ROW_WIDTH / 2 + LAYOUT_OFFSET + k) 0 : ℕ) : F)
    s_keccak := [0, 0, 0, 0]
    c_keccak := [0, 0, 0, 0]
    branch_acc_s := 0
    branch_mult_s := 0
    branch_acc_c := 0
    branch_mult_c := 0 }

/-- The branch-init accumulator computation of `MPTConfig::assign`
(mpt.rs lines 1419-1447) for one side starting at byte position `start`:
fold the first two RLP prefix bytes with multiplier `r`, and when the
first byte is 249 (three-byte length prefix) also the third. -/
def branchInitAcc (r : F) (row : List ℕ) (start : ℕ) : F × F :=
  let acc : F := ((row.getD start 0 : ℕ) : F) + ((row.getD (start + 1) 0 : ℕ) : F) * r
  let mult : F := r * r
  if row.getD start 0 = 249 then
    (acc + ((row.getD (start + 2) 0 : ℕ) : F) * mult, mult * r)
  else (acc, mult)

/-- The `compute_acc_and_mult` closure of `MPTConfig::assign`: an empty
child (second RLP byte zero) contributes the byte 128; a non-empty child
contributes 160 followed by its 32 hash bytes. -/
def compute_acc_and_mult (r : F) (row : List ℕ) (acc mult : F)
    (rlp_start start : ℕ) : F × F :=
  if row.getD (rlp_start + 1) 0 = 0 then (acc + 128 * mult, mult * r)
  else List.foldl (rlcStep r) (acc, mult)
    ((160 : F) :: (List.range HASH_WIDTH).map fun k => ((row.getD (start + k) 0 : ℕ) : F))

/-- The mutable state carried by the row walk of `MPTConfig::assign`. -/
structure LoopState (F : Type) where
  modified_node : ℕ
  s_words : List ℕ
  c_words : List ℕ
  node_index : ℕ
  branch_acc_s : F
  branch_mult_s : F
  branch_acc_c : F
  branch_mult_c : F
  key_rlc : F
  key_rlc_mult : F
  not_first_level : F

/-- The initial walk state of `MPTConfig::assign` (mpt.rs lines
1341-1351): accumulators zero, `key_rlc_mult` one, `not_first_level`
zero. -/
def initLoopState : LoopState F :=
  { modified_node := 0
    s_words := [0, 0, 0, 0]
    c_words := [0, 0, 0, 0]
    node_index := 0
    branch_acc_s := 0
    branch_mult_s := 0
    branch_acc_c := 0
    branch_mult_c := 0
    key_rlc := 0
    key_rlc_mult := 1
    not_first_level := 0 }

/-- The enumerated walk of `MPTConfig::assign` over the filtered witness
rows.  `witness` is the full, unfiltered witness (the code indexes it
with the filtered index `ind` when extracting the modified child's hash
bytes, and so does this embedding), `ind` the filtered row index, `st`
the carried state.  `not_first_level` flips to one exactly when the
filtered row at index 17 or 20 carries discriminant 0. -/
def mptGo (cfg : MPTCfg F) (witness : List (List ℕ)) :
    ℕ → LoopState F → List (List ℕ) → List (AssignedRow F)
  | _, _, [] => []
  | ind, st, row :: rest =>
    let nfl : F :=
      if (ind = 17 ∧ lastByte row = 0) ∨ (ind = 20 ∧ lastByte row = 0) then 1
      else st.not_first_level
    let d := lastByte row
    if d = 0 then
      let m := row.getD BRANCH_0_KEY_POS 0
      let s_hash := ((witness.getD (ind + 1 + m) []).drop S_START).take HASH_WIDTH
      let c_hash := ((witness.getD (ind + 1 + m) []).drop C_START).take HASH_WIDTH
      let accS := branchInitAcc cfg.branch_acc_r row BRANCH_0_S_START
      let accC := branchInitAcc cfg.branch_acc_r row BRANCH_0_C_START
      let out : AssignedRow F :=
        { assign_row row.dropLast true false false 0 0 false false false
            false false false false false false false with
          q_enable := 1
          q_not_first := if ind = 0 then 0 else 1
          not_first_level := nfl
          branch_acc_s := accS.1
          branch_mult_s := accS.2
          branch_acc_c := accC.1
          branch_mult_c := accC.2 }
      out :: mptGo cfg witness (ind + 1)
        { st with
          modified_node := m
          node_index := 0
          s_words := intoWords s_hash
          c_words := intoWords c_hash
          branch_acc_s := accS.1
          branch_mult_s := accS.2
          branch_acc_c := accC.1
          branch_mult_c := accC.2
          not_first_level := nfl } rest
    else if d = 1 then
      let key : F × F :=
        if st.node_index = 0 then
          (st.key_rlc + (st.modified_node : F) * st.key_rlc_mult,
           st.key_rlc_mult * cfg.key_rlc_r)
        else (st.key_rlc, st.key_rlc_mult)
      let rowKey : F × F := if st.node_index = 0 then key else (0, 0)
      let accS := compute_acc_and_mult cfg.branch_acc_r row st.branch_acc_s
        st.branch_mult_s S_RLP_START S_START
      let accC := compute_acc_and_mult cfg.branch_acc_r row st.branch_acc_c
        st.branch_mult_c C_RLP_START C_START
      let out : AssignedRow F :=
        { assign_row row.dropLast false true (st.node_index = 15)
            st.node_index st.modified_node false false false
            false false false false false false false with
          q_enable := 1
          q_not_first := 1
          not_first_level := nfl
          s_keccak := st.s_words.map fun n => ((n : ℕ) : F)
          c_keccak := st.c_words.map fun n => ((n : ℕ) : F)
          key_rlc := rowKey.1
          key_rlc_mult := rowKey.2
          branch_acc_s := accS.1
          branch_mult_s := accS.2
          branch_acc_c := accC.1
          branch_mult_c := accC.2 }
      out :: mptGo cfg witness (ind + 1)
        { st with
          node_index := st.node_index + 1
          key_rlc := key.1
          key_rlc_mult := key.2
          branch_acc_s := accS.1
          branch_mult_s := accS.2
          branch_acc_c := accC.1
          branch_mult_c := accC.2
          not_first_level := nfl } rest
    else if d = 2 ∨ d = 3 ∨ d = 4 ∨ d = 6 ∨ d = 7 ∨ d = 8 ∨ d = 9 ∨
        d = 10 ∨ d = 11 ∨ d = 12 then
      let out : AssignedRow F :=
        { assign_row row.dropLast false false false 0 0
            (d = 2) (d = 3) (d = 4) (d = 6) (d = 7) (d = 8) (d = 9)
            (d = 10) (d = 11) (d = 12) with
          q_enable := 1
          q_not_first := 1
          not_first_level := nfl }
      out :: mptGo cfg witness (ind + 1) { st with not_first_level := nfl } rest
    else
      mptGo cfg witness (ind + 1) { st with not_first_level := nfl } rest

/-- The whole of `MPTConfig::assign`: filter out the to-be-hashed rows
(discriminant 5) and walk the rest from the initial state. -/
def assignMPT (cfg : MPTCfg F) (witness : List (List ℕ)) : List (AssignedRow F) :=
  mptGo cfg witness 0 initLoopState (witness.filter fun rr => lastByte rr ≠ 5)

/-!
Concrete instances.  Witnesses and counterexamples are evaluated in the
prime field `ZMod 65537`; the production field (a ~2^254 prime field)
shares every property used here (characteristic far above all the small
numerals involved).
-/

instance factPrime65537 : Fact (Nat.Prime 65537) := ⟨by norm_num⟩

/-- The concrete evaluation field for witnesses and counterexamples. -/
abbrev Fq := ZMod 65537

/-- A hash lookup table holding only the all-zero row (the content every
halo2 fixed lookup table has on its unassigned rows). -/
def zeroKeccakTable : List (KeccakTuple Fq) := [(0, 0, 0, 0, 0)]

/-- A fully satisfying table consisting of one first-trie-level branch
whose branch-init row is followed by SEVENTEEN branch-child rows with
node_index sequence 0, 0, 1, ..., 15 (the value 0 duplicated), each an
empty child (byte 128), terminated by an all-zero row at offset 18 that
still carries `q_not_first = 1`.  `branch_acc_r = key_rlc_r = 1`
(mpt.rs fixes `branch_acc_r` to one).  Every embedded constraint is
satisfied, which makes this table a counterexample to several
universality claims. -/
def T17 : Table Fq where
  q_enable := fun i => if i ≤ 17 then 1 else 0
  q_not_first := fun i => if 1 ≤ i ∧ i ≤ 18 then 1 else 0
  not_first_level := fun _ => 0
  is_branch_init := fun i => if i = 0 then 1 else 0
  is_branch_child := fun i => if 1 ≤ i ∧ i ≤ 17 then 1 else 0
  is_last_branch_child := fun i => if i = 17 then 1 else 0
  is_leaf_s := fun _ => 0
  is_leaf_c := fun _ => 0
  is_leaf_key_nibbles := fun _ => 0
  is_account_leaf_key_s := fun _ => 0
  is_account_leaf_nonce_balance_s := fun _ => 0
  is_account_leaf_storage_codehash_s := fun _ => 0
  is_account_leaf_key_c := fun _ => 0
  is_account_leaf_nonce_balance_c := fun _ => 0
  is_account_leaf_storage_codehash_c := fun _ => 0
  is_account_leaf_key_nibbles := fun _ => 0
  node_index := fun i => if 3 ≤ i ∧ i ≤ 17 then ((i - 2 : ℕ) : Fq) else 0
  is_modified := fun _ => 0
  modified_node := fun _ => 0
  s_rlp1 := fun i => if i = 0 then 1 else 0
  s_rlp2 := fun _ => 0
  c_rlp1 := fun _ => 0
  c_rlp2 := fun _ => 0
  s_advices := fun k i => if k = 0 ∧ 1 ≤ i ∧ i ≤ 17 then 128 else 0
  c_advices := fun k i => if k = 0 ∧ 1 ≤ i ∧ i ≤ 17 then 128 else 0
  s_keccak := fun _ _ => 0
  c_keccak := fun _ _ => 0
  branch_acc_s := fun i => if 1 ≤ i ∧ i ≤ 17 then ((128 * i : ℕ) : Fq) else 0
  branch_mult_s := fun i => if i ≤ 17 then 1 else 0
  branch_acc_c := fun i => if 1 ≤ i ∧ i ≤ 17 then ((128 * i : ℕ) : Fq) else 0
  branch_mult_c := fun i => if i ≤ 17 then 1 else 0
  key_rlc := fun _ => 0
  key_rlc_mult := fun i => if i = 1 then 1 else 0

/-- A table exercising the two `key_rlc` constraint families of the
"branch children" gate: a branch-init row at offset 16 followed by a
first branch-child row at offset 17 marked `not_first_level = 1`, whose
key accumulator continues the one stored 17 rows above (offset 0), with
`key_rlc_r = 7`. -/
def W2 : Table Fq where
  q_enable := fun _ => 0
  q_not_first := fun i => if i = 17 then 1 else 0
  not_first_level := fun i => if i = 17 then 1 else 0
  is_branch_init := fun i => if i = 16 then 1 else 0
  is_branch_child := fun i => if i = 17 then 1 else 0
  is_last_branch_child := fun _ => 0
  is_leaf_s := fun _ => 0
  is_leaf_c := fun _ => 0
  is_leaf_key_nibbles := fun _ => 0
  is_account_leaf_key_s := fun _ => 0
  is_account_leaf_nonce_balance_s := fun _ => 0
  is_account_leaf_storage_codehash_s := fun _ => 0
  is_account_leaf_key_c := fun _ => 0
  is_account_leaf_nonce_balance_c := fun _ => 0
  is_account_leaf_storage_codehash_c := fun _ => 0
  is_account_leaf_key_nibbles := fun _ => 0
  node_index := fun _ => 0
  is_modified := fun _ => 0
  modified_node := fun i => if i = 17 then 2 else 0
  s_rlp1 := fun _ => 0
  s_rlp2 := fun _ => 0
  c_rlp1 := fun _ => 0
  c_rlp2 := fun _ => 0
  s_advices := fun _ _ => 0
  c_advices := fun _ _ => 0
  s_keccak := fun _ _ => 0
  c_keccak := fun _ _ => 0
  branch_acc_s := fun _ => 0
  branch_mult_s := fun _ => 0
  branch_acc_c := fun _ => 0
  branch_mult_c := fun _ => 0
  key_rlc := fun i => if i = 0 then 3 else if i = 17 then 13 else 0
  key_rlc_mult := fun i => if i = 0 then 5 else if i = 17 then 35 else 0

/-- A table with one complete, well-formed branch level (branch-init at
offset 0, exactly 16 branch-child rows with node_index 0..15,
`modified_node = 3` throughout, first trie level with `key_rlc_r = 1`,
terminated by a non-child row at offset 17). -/
def W3 : Table Fq where
  q_enable := fun _ => 0
  q_not_first := fun i => if 1 ≤ i ∧ i ≤ 17 then 1 else 0
  not_first_level := fun _ => 0
  is_branch_init := fun i => if i = 0 then 1 else 0
  is_branch_child := fun i => if 1 ≤ i ∧ i ≤ 16 then 1 else 0
  is_last_branch_child := fun i => if i = 16 then 1 else 0
  is_leaf_s := fun _ => 0
  is_leaf_c := fun _ => 0
  is_leaf_key_nibbles := fun _ => 0
  is_account_leaf_key_s := fun _ => 0
  is_account_leaf_nonce_balance_s := fun _ => 0
  is_account_leaf_storage_codehash_s := fun _ => 0
  is_account_leaf_key_c := fun _ => 0
  is_account_leaf_nonce_balance_c := fun _ => 0
  is_account_leaf_storage_codehash_c := fun _ => 0
  is_account_leaf_key_nibbles := fun _ => 0
  node_index := fun i => if 1 ≤ i ∧ i ≤ 16 then ((i - 1 : ℕ) : Fq) else 0
  is_modified := fun _ => 0
  modified_node := fun i => if 1 ≤ i ∧ i ≤ 16 then 3 else 0
  s_rlp1 := fun _ => 0
  s_rlp2 := fun _ => 0
  c_rlp1 := fun _ => 0
  c_rlp2 := fun _ => 0
  s_advices := fun _ _ => 0
  c_advices := fun _ _ => 0
  s_keccak := fun _ _ => 0
  c_keccak := fun _ _ => 0
  branch_acc_s := fun _ => 0
  branch_mult_s := fun _ => 0
  branch_acc_c := fun _ => 0
  branch_mult_c := fun _ => 0
  key_rlc := fun i => if i = 1 then 3 else 0
  key_rlc_mult := fun i => if i = 1 then 1 else 0

/-- A table with a single enabled branch-child row at offset 0 that is
off the modified path (`node_index = 1`, `modified_node = 0`) and has
identical S and C bytes. -/
def W4 : Table Fq where
  q_enable := fun i => if i = 0 then 1 else 0
  q_not_first := fun _ => 0
  not_first_level := fun _ => 0
  is_branch_init := fun _ => 0
  is_branch_child := fun i => if i = 0 then 1 else 0
  is_last_branch_child := fun _ => 0
  is_leaf_s := fun _ => 0
  is_leaf_c := fun _ => 0
  is_leaf_key_nibbles := fun _ => 0
  is_account_leaf_key_s := fun _ => 0
  is_account_leaf_nonce_balance_s := fun _ => 0
  is_account_leaf_storage_codehash_s := fun _ => 0
  is_account_leaf_key_c := fun _ => 0
  is_account_leaf_nonce_balance_c := fun _ => 0
  is_account_leaf_storage_codehash_c := fun _ => 0
  is_account_leaf_key_nibbles := fun _ => 0
  node_index := fun i => if i = 0 then 1 else 0
  is_modified := fun _ => 0
  modified_node := fun _ => 0
  s_rlp1 := fun _ => 0
  s_rlp2 := fun _ => 0
  c_rlp1 := fun _ => 0
  c_rlp2 := fun _ => 0
  s_advices := fun _ _ => 0
  c_advices := fun _ _ => 0
  s_keccak := fun _ _ => 0
  c_keccak := fun _ _ => 0
  branch_acc_s := fun _ => 0
  branch_mult_s := fun _ => 0
  branch_acc_c := fun _ => 0
  branch_mult_c := fun _ => 0
  key_rlc := fun _ => 0
  key_rlc_mult := fun _ => 0

/-- A table whose row 0 is an enabled branch-init row in the
three-RLP-byte form (`s_rlp2 = 1` indicator), S prefix bytes
249, 1, 81 and C prefix bytes 249, 2, 82, with accumulators computed at
`branch_acc_r = 2`: S accumulator `249 + 1*2 + 81*4 = 575`, C
accumulator `249 + 2*2 + 82*4 = 581`, both multipliers `2^3 = 8`. -/
def W5 : Table Fq where
  q_enable := fun i => if i = 0 then 1 else 0
  q_not_first := fun _ => 0
  not_first_level := fun _ => 0
  is_branch_init := fun i => if i = 0 then 1 else 0
  is_branch_child := fun _ => 0
  is_last_branch_child := fun _ => 0
  is_leaf_s := fun _ => 0
  is_leaf_c := fun _ => 0
  is_leaf_key_nibbles := fun _ => 0
  is_account_leaf_key_s := fun _ => 0
  is_account_leaf_nonce_balance_s := fun _ => 0
  is_account_leaf_storage_codehash_s := fun _ => 0
  is_account_leaf_key_c := fun _ => 0
  is_account_leaf_nonce_balance_c := fun _ => 0
  is_account_leaf_storage_codehash_c := fun _ => 0
  is_account_leaf_key_nibbles := fun _ => 0
  node_index := fun _ => 0
  is_modified := fun _ => 0
  modified_node := fun _ => 0
  s_rlp1 := fun _ => 0
  s_rlp2 := fun i => if i = 0 then 1 else 0
  c_rlp1 := fun _ => 0
  c_rlp2 := fun _ => 0
  s_advices := fun k i =>
    if i = 0 then
      if k = 0 then 249 else if k = 1 then 1 else if k = 2 then 81
      else if k = 3 then 249 else if k = 4 then 2 else if k = 5 then 82
      else 0
    else 0
  c_advices := fun _ _ => 0
  s_keccak := fun _ _ => 0
  c_keccak := fun _ _ => 0
  branch_acc_s := fun i => if i = 0 then 575 else 0
  branch_mult_s := fun i => if i = 0 then 8 else 0
  branch_acc_c := fun i => if i = 0 then 581 else 0
  branch_mult_c := fun i => if i = 0 then 8 else 0
  key_rlc := fun _ => 0
  key_rlc_mult := fun _ => 0

/-- A witness row in the three-RLP-byte branch form: first prefix byte
249 at the `BRANCH_0_S_START` position and at the `BRANCH_0_C_START`
position. -/
def row249 : List ℕ := [0, 1, 249, 1, 81, 249, 2, 82]

/-- A witness row in the two-RLP-byte branch form: first prefix byte 248
on both sides. -/
def row248 : List ℕ := [1, 0, 248, 81, 0, 248, 99, 0]

/-- Account-leaf storage/codehash chip columns with one enabled row at
offset 1: previous accumulator 5, previous multiplier 1, storage-root
length byte 3, code-hash length byte 4, all hash bytes zero, challenge
`acc_r = 1`, so the continued RLC is `5 + 3 + 4 = 12`. -/
def W6 : StorageCodehashCols Fq where
  q_enable := fun i => if i = 1 then 1 else 0
  s_rlp2 := fun i => if i = 1 then 3 else 0
  c_rlp2 := fun i => if i = 1 then 4 else 0
  s_advices := fun _ _ => 0
  c_advices := fun _ _ => 0
  acc := fun i => if i = 0 then 5 else if i = 1 then 12 else 0
  acc_mult := fun i => if i = 0 then 1 else 0

/-- Leaf-value chip columns (S side, so the current lookup row is
`i + 18`): the row at offset 18 is enabled and active (`sel` and
`is_branch_placeholder` both zero there), with previous accumulator 7
and multiplier 0 so the recomputed RLC is 7, and digest words 1, 2, 3, 4
stored at offset 14 (rotation -4); `sel = 1` at offset 15 and
`is_branch_placeholder = 1` at offset 5 exercise the two bypasses. -/
def W7 : LeafValueCols Fq where
  q_enable := fun i => if i = 18 then 1 else 0
  s_rlp1 := fun _ => 0
  s_rlp2 := fun _ => 0
  s_advices := fun _ _ => 0
  sc_keccak := fun w i => if i = 14 then ((w + 1 : ℕ) : Fq) else 0
  acc := fun i => if i = 17 then 7 else 0
  acc_mult := fun _ => 0
  sel := fun i => if i = 15 then 1 else 0
  is_branch_placeholder := fun i => if i = 5 then 1 else 0

/-- Hash lookup table for `W7`: the zero row plus the pair
(leaf RLC 7, digest words 1, 2, 3, 4). -/
def tblW7 : List (KeccakTuple Fq) := [(0, 0, 0, 0, 0), (7, 1, 2, 3, 4)]

/-- A table with a non-first-level last-branch-child row at offset 17
(S accumulator 3, C accumulator 4, multipliers 1) whose digest words
9, 8, 7, 6 (S) and 1, 2, 3, 4 (C) are stored at offset 0, seventeen rows
above. -/
def WL : Table Fq where
  q_enable := fun _ => 0
  q_not_first := fun _ => 0
  not_first_level := fun i => if i = 17 then 1 else 0
  is_branch_init := fun _ => 0
  is_branch_child := fun _ => 0
  is_last_branch_child := fun i => if i = 17 then 1 else 0
  is_leaf_s := fun _ => 0
  is_leaf_c := fun _ => 0
  is_leaf_key_nibbles := fun _ => 0
  is_account_leaf_key_s := fun _ => 0
  is_account_leaf_nonce_balance_s := fun _ => 0
  is_account_leaf_storage_codehash_s := fun _ => 0
  is_account_leaf_key_c := fun _ => 0
  is_account_leaf_nonce_balance_c := fun _ => 0
  is_account_leaf_storage_codehash_c := fun _ => 0
  is_account_leaf_key_nibbles := fun _ => 0
  node_index := fun _ => 0
  is_modified := fun _ => 0
  modified_node := fun _ => 0
  s_rlp1 := fun _ => 0
  s_rlp2 := fun _ => 0
  c_rlp1 := fun _ => 0
  c_rlp2 := fun _ => 0
  s_advices := fun _ _ => 0
  c_advices := fun _ _ => 0
  s_keccak := fun w i => if i = 0 then ((9 - w : ℕ) : Fq) else 0
  c_keccak := fun w i => if i = 0 then ((w + 1 : ℕ) : Fq) else 0
  branch_acc_s := fun i => if i = 17 then 3 else 0
  branch_mult_s := fun i => if i = 17 then 1 else 0
  branch_acc_c := fun i => if i = 17 then 4 else 0
  branch_mult_c := fun i => if i = 17 then 1 else 0
  key_rlc := fun _ => 0
  key_rlc_mult := fun _ => 0

/-- Hash lookup table for `WL`: the zero row plus the two branch-hash
pairs `(3 + 128*1, 9, 8, 7, 6)` and `(4 + 128*1, 1, 2, 3, 4)`. -/
def tblWL : List (KeccakTuple Fq) := [(0, 0, 0, 0, 0), (131, 9, 8, 7, 6), (132, 1, 2, 3, 4)]

/-- A branch-init witness row (discriminant 0): two-RLP-byte indicator
set, all bytes zero. -/
def branchInitRow0 : List ℕ := [1, 0] ++ List.replicate 66 0 ++ [0]

/-- An empty-child branch witness row (discriminant 1): byte 128 at the
start of each 32-byte field, second RLP byte zero on both sides. -/
def emptyChildRow : List ℕ :=
  [0, 0, 128] ++ List.replicate 31 0 ++ [0, 0, 128] ++ List.replicate 31 0 ++ [1]

/-- A minimal witness node list: one branch-init row followed by its 16
(empty) children.  Its filtered length is 17, so no filtered row sits at
index 17 or 20. -/
def w0 : List (List ℕ) := branchInitRow0 :: List.replicate 16 emptyChildRow

/-!
Helper lemmas: closed forms of the RLC fold, list indexing helpers, and
satisfaction proofs for the concrete tables.
-/

/-- Closed form of the accumulator component of the RLC fold. -/
theorem foldl_rlcStep_fst (r : F) (L : List F) (a m : F) :
    (L.foldl (rlcStep r) (a, m)).1 =
      a + ∑ t ∈ Finset.range L.length, L.getD t 0 * (m * r ^ t) := by
  induction L generalizing a m with
  | nil => simp
  | cons b tail ih =>
    rw [List.foldl_cons]
    show (tail.foldl (rlcStep r) (a + b * m, m * r)).1 = _
    rw [ih, List.length_cons, Finset.sum_range_succ']
    simp only [List.getD_cons_succ, List.getD_cons_zero, pow_zero]
    have hsum : ∑ t ∈ Finset.range tail.length, tail.getD t 0 * (m * r * r ^ t)
        = ∑ t ∈ Finset.range tail.length, tail.getD t 0 * (m * r ^ (t + 1)) :=
      Finset.sum_congr rfl fun t _ => by ring
    rw [hsum]; ring

/-- Closed form of the multiplier component of the RLC fold. -/
theorem foldl_rlcStep_snd (r : F) (L : List F) (a m : F) :
    (L.foldl (rlcStep r) (a, m)).2 = m * r ^ L.length := by
  induction L generalizing a m with
  | nil => simp
  | cons b tail ih =>
    rw [List.foldl_cons]
    show (tail.foldl (rlcStep r) (a + b * m, m * r)).2 = _
    rw [ih, List.length_cons]
    ring

/-- Indexing a mapped range list. -/
theorem getD_map_range (f : ℕ → F) (n k : ℕ) (h : k < n) :
    ((List.range n).map f).getD k 0 = f k := by
  rw [List.getD_eq_getElem?_getD, List.getElem?_map, List.getElem?_range h]
  rfl

/-- Indexing an append on the left part. -/
theorem getD_append_left (l l' : List F) (n : ℕ) (h : n < l.length) :
    (l ++ l').getD n 0 = l.getD n 0 :=
  List.getD_append l l' 0 n h

/-- Indexing an append on the right part. -/
theorem getD_append_right (l l' : List F) (n : ℕ) (h : l.length ≤ n) :
    (l ++ l').getD n 0 = l'.getD (n - l.length) 0 := by
  rw [List.getD_eq_getElem?_getD, List.getElem?_append_right h,
    ← List.getD_eq_getElem?_getD]

/-- An in-range `getD` is a member of the list. -/
theorem getD_mem {α : Type} (l : List α) (n : ℕ) (d : α) (h : n < l.length) :
    l.getD n d ∈ l := by
  rw [List.getD_eq_getElem?_getD, List.getElem?_eq_getElem h]
  exact List.getElem_mem _

/-- Every row that the assignment walk emits keeps `is_modified` equal to
the indicator of `modified_node = node_index`, exactly as `assign_row`
writes it. -/
theorem mptGo_is_modified (cfg : MPTCfg F) (w : List (List ℕ)) :
    ∀ (rows : List (List ℕ)) (ind : ℕ) (st : LoopState F),
      ∀ a ∈ mptGo cfg w ind st rows,
        ∃ m n : ℕ, a.modified_node = ((m : ℕ) : F) ∧ a.node_index = ((n : ℕ) : F) ∧
          a.is_modified = if m = n then 1 else 0 := by
  intro rows
  induction rows with
  | nil =>
    intro ind st a ha
    simp [mptGo] at ha
  | cons row rest ih =>
    intro ind st a ha
    simp only [mptGo] at ha
    generalize (if (ind = 17 ∧ lastByte row = 0) ∨ (ind = 20 ∧ lastByte row = 0)
      then (1 : F) else st.not_first_level) = nflv at ha
    generalize (if ind = 0 then (0 : F) else 1) = qnfv at ha
    generalize (if st.node_index = 0 then
        (st.key_rlc + (st.modified_node : F) * st.key_rlc_mult,
         st.key_rlc_mult * cfg.key_rlc_r)
      else (st.key_rlc, st.key_rlc_mult)) = kv at ha
    generalize (if st.node_index = 0 then kv else ((0 : F), (0 : F))) = rkv at ha
    split_ifs at ha with h0 h1 h2
    · rcases List.mem_cons.mp ha with rfl | hrest
      · exact ⟨0, 0, by simp [assign_row], by simp [assign_row], by simp [assign_row]⟩
      · exact ih _ _ a hrest
    · rcases List.mem_cons.mp ha with rfl | hrest
      · exact ⟨st.modified_node, st.node_index, by simp [assign_row],
          by simp [assign_row], by simp [assign_row]⟩
      · exact ih _ _ a hrest
    · rcases List.mem_cons.mp ha with rfl | hrest
      · exact ⟨0, 0, by simp [assign_row], by simp [assign_row], by simp [assign_row]⟩
      · exact ih _ _ a hrest
    · exact ih _ _ a ha

/-- If no filtered row index in the walk window is 17 or 20 with
discriminant 0, the `not_first_level` state stays 0 and every emitted row
carries 0. -/
theorem mptGo_nfl_zero (cfg : MPTCfg F) (w : List (List ℕ)) :
    ∀ (rows : List (List ℕ)) (ind : ℕ) (st : LoopState F),
      st.not_first_level = 0 →
      (∀ j < rows.length, ¬((ind + j = 17 ∨ ind + j = 20) ∧ lastByte (rows.getD j []) = 0)) →
      ∀ a ∈ mptGo cfg w ind st rows, a.not_first_level = 0 := by
  intro rows
  induction rows with
  | nil =>
    intro ind st _ _ a ha
    simp [mptGo] at ha
  | cons row rest ih =>
    intro ind st hst hno a ha
    have h0 := hno 0 (by simp)
    rw [List.getD_cons_zero, Nat.add_zero] at h0
    have hcond : ¬((ind = 17 ∧ lastByte row = 0) ∨ (ind = 20 ∧ lastByte row = 0)) := by
      tauto
    have hshift : ∀ j < rest.length,
        ¬((ind + 1 + j = 17 ∨ ind + 1 + j = 20) ∧ lastByte (rest.getD j []) = 0) := by
      intro j hj
      have := hno (j + 1) (by simpa using Nat.succ_lt_succ hj)
      rw [List.getD_cons_succ] at this
      rw [show ind + 1 + j = ind + (j + 1) from by omega]
      exact this
    simp only [mptGo, if_neg hcond, hst] at ha
    generalize (if ind = 0 then (0 : F) else 1) = qnfv at ha
    generalize (if st.node_index = 0 then
        (st.key_rlc + (st.modified_node : F) * st.key_rlc_mult,
         st.key_rlc_mult * cfg.key_rlc_r)
      else (st.key_rlc, st.key_rlc_mult)) = kv at ha
    generalize (if st.node_index = 0 then kv else ((0 : F), (0 : F))) = rkv at ha
    split_ifs at ha with h0' h1' h2'
    · rcases List.mem_cons.mp ha with rfl | hrest
      · rfl
      · exact ih _ _ rfl hshift a hrest
    · rcases List.mem_cons.mp ha with rfl | hrest
      · rfl
      · exact ih _ _ rfl hshift a hrest
    · rcases List.mem_cons.mp ha with rfl | hrest
      · rfl
      · exact ih _ _ rfl hshift a hrest
    · exact ih _ _ rfl hshift a ha

set_option synthInstance.maxSize 1024 in
set_option synthInstance.maxHeartbeats 1000000 in
set_option maxHeartbeats 2000000 in
/-- The table `T17` meets every embedded constraint on rows 0 to 18. -/
theorem satisfiesLow_T17 : ∀ i < 19, SatisfiesAt T17 zeroKeccakTable 1 1 i := by decide

/-- The table `T17` (one first-level branch with a duplicated node_index
0, hence 17 branch-child rows) satisfies every embedded constraint. -/
theorem satisfies_T17 : Satisfies T17 zeroKeccakTable 1 1 := by
  intro i
  by_cases h : i < 19
  · exact satisfiesLow_T17 i h
  · have h19 : 19 ≤ i := not_lt.mp h
    have e1 : T17.q_enable i = 0 := by
      simp only [T17]; rw [if_neg (by omega)]
    have e2 : T17.q_not_first (i + 1) = 0 := by
      simp only [T17]; rw [if_neg (by omega)]
    have e3 : T17.not_first_level (i + 17) = 0 := rfl
    simp only [SatisfiesAt, generalGateAt, branchChildrenGateAt,
      branchInitAccGateAt, keccakGateAt, branchAccChipAt,
      branchLookupSInput, branchLookupCInput, e1, e2, e3, zero_mul,
      mul_zero, and_true, true_and, and_self, implies_true,
      zeroKeccakTable, List.mem_singleton]

/-- Rows 0 to 18 of `W2` meet the branch-children gate. -/
theorem branchChildrenLow_W2 : ∀ i < 19, branchChildrenGateAt W2 7 i := by decide

/-- The table `W2` satisfies the branch-children gate with scalar 7. -/
theorem branchChildren_W2 : branchChildrenGate W2 7 := by
  intro i
  by_cases h : i < 19
  · exact branchChildrenLow_W2 i h
  · have h19 : 19 ≤ i := not_lt.mp h
    have e2 : W2.q_not_first (i + 1) = 0 := by
      simp only [W2]; rw [if_neg (by omega)]
    have e3 : W2.not_first_level (i + 17) = 0 := by
      simp only [W2]; rw [if_neg (by omega)]
    simp only [branchChildrenGateAt, e2, e3, zero_mul, and_self]

/-- Rows 0 to 18 of `W3` meet the branch-children gate. -/
theorem branchChildrenLow_W3 : ∀ i < 19, branchChildrenGateAt W3 1 i := by decide

/-- The table `W3` satisfies the branch-children gate with scalar 1. -/
theorem branchChildren_W3 : branchChildrenGate W3 1 := by
  intro i
  by_cases h : i < 19
  · exact branchChildrenLow_W3 i h
  · have h19 : 19 ≤ i := not_lt.mp h
    have e2 : W3.q_not_first (i + 1) = 0 := by
      simp only [W3]; rw [if_neg (by omega)]
    have e3 : W3.not_first_level (i + 17) = 0 := rfl
    simp only [branchChildrenGateAt, e2, e3, zero_mul, and_self]

/-- Row 0 of `W4` meets the general-constraints gate. -/
theorem generalGateLow_W4 : ∀ i < 1, generalGateAt W4 i := by decide

/-- The table `W4` satisfies the general-constraints gate. -/
theorem generalGate_W4 : generalGate W4 := by
  intro i
  by_cases h : i < 1
  · exact generalGateLow_W4 i h
  · have h1 : 1 ≤ i := not_lt.mp h
    have e : W4.q_enable i = 0 := by
      simp only [W4]; rw [if_neg (by omega)]
    simp only [generalGateAt, e, zero_mul, and_self, implies_true, and_true]

/-- Row 0 of `W5` meets the branch-init accumulator gate. -/
theorem branchInitAccGateLow_W5 : ∀ i < 1, branchInitAccGateAt W5 2 i := by decide

/-- The table `W5` satisfies the branch-init accumulator gate with
scalar 2. -/
theorem branchInitAccGate_W5 : branchInitAccGate W5 2 := by
  intro i
  by_cases h : i < 1
  · exact branchInitAccGateLow_W5 i h
  · have h1 : 1 ≤ i := not_lt.mp h
    have e : W5.q_enable i = 0 := by
      simp only [W5]; rw [if_neg (by omega)]
    simp only [branchInitAccGateAt, e, zero_mul, and_self]

set_option maxRecDepth 10000 in
/-- Row offset 0 of `W6` meets the storage/codehash gate. -/
theorem accountGateLow_W6 :
    ∀ i < 1, W6.q_enable (i + 1) * (storageCodehashExpr W6 1 i - W6.acc (i + 1)) = 0 := by
  decide

/-- The chip columns `W6` satisfy the account-leaf storage/codehash gate
with scalar 1. -/
theorem accountGate_W6 : accountLeafStorageCodehashGate W6 1 := by
  intro i
  by_cases h : i < 1
  · exact accountGateLow_W6 i h
  · have h1 : 1 ≤ i := not_lt.mp h
    have e : W6.q_enable (i + 1) = 0 := by
      simp only [W6]; rw [if_neg (by omega)]
    rw [e, zero_mul]

/-- Row offset 0 of `W7` meets the leaf-value lookup. -/
theorem leafValueLookupLow_W7 : ∀ i < 1, leafValueInput W7 true 1 i ∈ tblW7 := by decide

/-- The chip columns `W7` satisfy the S-side leaf-value lookup against
`tblW7` with scalar 1. -/
theorem leafValueLookup_W7 : leafValueLookup W7 tblW7 true 1 := by
  intro i
  by_cases h : i < 1
  · exact leafValueLookupLow_W7 i h
  · have h1 : 1 ≤ i := not_lt.mp h
    have e : W7.q_enable (i + rotPlaceholderBranch true) = 0 := by
      simp only [rotPlaceholderBranch, if_true, W7]
      rw [if_neg (by omega)]
    simp only [leafValueInput, e, zero_mul, tblW7, List.mem_cons]
    exact Or.inl trivial

/-- Row offset 0 of `WL` meets the S-side branch-hash lookup. -/
theorem branchLookupSLow_WL : ∀ i < 1, branchLookupSInput WL i ∈ tblWL := by decide

/-- The table `WL` satisfies the S-side branch-hash lookup against
`tblWL`. -/
theorem branchLookupS_WL : branchLookupS WL tblWL := by
  intro i
  by_cases h : i < 1
  · exact branchLookupSLow_WL i h
  · have h1 : 1 ≤ i := not_lt.mp h
    have e : WL.not_first_level (i + 17) = 0 := by
      simp only [WL]; rw [if_neg (by omega)]
    simp only [branchLookupSInput, e, zero_mul, tblWL, List.mem_cons]
    exact Or.inl trivial

/-- Row offset 0 of `WL` meets the C-side branch-hash lookup. -/
theorem branchLookupCLow_WL : ∀ i < 1, branchLookupCInput WL i ∈ tblWL := by decide

/-- The table `WL` satisfies the C-side branch-hash lookup against
`tblWL`. -/
theorem branchLookupC_WL : branchLookupC WL tblWL := by
  intro i
  by_cases h : i < 1
  · exact branchLookupCLow_WL i h
  · have h1 : 1 ≤ i := not_lt.mp h
    have e : WL.not_first_level (i + 17) = 0 := by
      simp only [WL]; rw [if_neg (by omega)]
    simp only [branchLookupCInput, e, zero_mul, tblWL, List.mem_cons]
    exact Or.inl trivial

/-!
Claim theorems.
-/

/-- C1 (amended): for every table satisfying the two branch-hash lookup
arguments, on every last-branch-child row of a level that is not the
first trie level (`not_first_level = 1`), the pair (branch RLP
accumulator plus the value-node byte 128 times the running multiplier,
the four digest words stored in `s_keccak` / `c_keccak` seventeen rows
above) is a row of the hash lookup table, for the S side and the C side
independently.  The claim's clause that at the first trie level the
accumulator is instead checked against an externally supplied root does
not hold: mpt.rs performs no first-level check at all (the comment at
line 763 leaves it as a TODO), which `first_level_branch_acc_unchecked`
exhibits. -/
theorem branch_hash_lookup_nonfirst_level (T : Table F) (tbl : List (KeccakTuple F))
    (hS : branchLookupS T tbl) (hC : branchLookupC T tbl) (i : ℕ)
    (hn : T.not_first_level (i + 17) = 1) (hl : T.is_last_branch_child (i + 17) = 1) :
    (T.branch_acc_s (i + 17) + 128 * T.branch_mult_s (i + 17),
      T.s_keccak 0 i, T.s_keccak 1 i, T.s_keccak 2 i, T.s_keccak 3 i) ∈ tbl ∧
    (T.branch_acc_c (i + 17) + 128 * T.branch_mult_c (i + 17),
      T.c_keccak 0 i, T.c_keccak 1 i, T.c_keccak 2 i, T.c_keccak 3 i) ∈ tbl := by
  have h1 := hS i
  have h2 := hC i
  simp only [branchLookupSInput, branchLookupCInput, hn, hl, one_mul] at h1 h2
  exact ⟨h1, h2⟩

/-- C1 witness: the theorem applied to the concrete table `WL`, whose
non-first-level last-branch-child row at offset 17 yields the pairs
`(131, 9, 8, 7, 6)` and `(132, 1, 2, 3, 4)` of `tblWL`. -/
theorem branch_hash_lookup_nonfirst_level_witness :
    ((WL.branch_acc_s (0 + 17) + 128 * WL.branch_mult_s (0 + 17),
      WL.s_keccak 0 0, WL.s_keccak 1 0, WL.s_keccak 2 0, WL.s_keccak 3 0) ∈ tblWL) ∧
    ((WL.branch_acc_c (0 + 17) + 128 * WL.branch_mult_c (0 + 17),
      WL.c_keccak 0 0, WL.c_keccak 1 0, WL.c_keccak 2 0, WL.c_keccak 3 0) ∈ tblWL) :=
  branch_hash_lookup_nonfirst_level WL tblWL branchLookupS_WL branchLookupC_WL 0
    (by decide) (by decide)

/-- C1 counterexample: `T17` satisfies every embedded constraint, yet its
first-trie-level (`not_first_level = 0`) last-branch-child row has a
branch accumulator pair `(2304, 0, 0, 0, 0)` that appears in no row of
the hash lookup table and is checked against nothing: no externally
supplied root exists in the constraint system (mpt.rs line 763 is a
TODO), so the first-level branch accumulator is unconstrained. -/
theorem first_level_branch_acc_unchecked :
    Satisfies T17 zeroKeccakTable 1 1 ∧
    T17.is_last_branch_child 17 = 1 ∧ T17.not_first_level 17 = 0 ∧
    (T17.branch_acc_s 17 + 128 * T17.branch_mult_s 17, T17.s_keccak 0 0,
      T17.s_keccak 1 0, T17.s_keccak 2 0, T17.s_keccak 3 0) ∉ zeroKeccakTable :=
  ⟨satisfies_T17, by decide, by decide, by decide⟩

/-- C2: for every table satisfying the branch-children gate, at a first
branch-child row (previous row is branch-init, rotation -17 reaching the
corresponding row of the previous level) the constraints force
`key_rlc(cur) = key_rlc(cur-17) + modified_node(cur) * key_rlc_mult(cur-17)`
and `key_rlc_mult(cur) = key_rlc_mult(cur-17) * r` when
`not_first_level = 1`, and `key_rlc(cur) = modified_node(cur)`,
`key_rlc_mult(cur) = r` at the first (top) level
(`q_not_first = 1`, `not_first_level = 0`), where `r` is the
key-derivation challenge scalar `key_rlc_r`. -/
theorem key_rlc_level_recurrence (T : Table F) (rkey : F)
    (hgate : branchChildrenGate T rkey) (i : ℕ) :
    (T.not_first_level (i + 17) = 1 → T.is_branch_init (i + 16) = 1 →
      T.key_rlc (i + 17) = T.key_rlc i + T.modified_node (i + 17) * T.key_rlc_mult i ∧
      T.key_rlc_mult (i + 17) = T.key_rlc_mult i * rkey) ∧
    (T.q_not_first (i + 17) = 1 → T.not_first_level (i + 17) = 0 →
      T.is_branch_init (i + 16) = 1 →
      T.key_rlc (i + 17) = T.modified_node (i + 17) ∧
      T.key_rlc_mult (i + 17) = rkey) := by
  constructor
  · intro hn hb
    obtain ⟨-, -, -, -, -, -, -, -, h9, h10, -⟩ := hgate i
    rw [hn, hb, one_mul, one_mul] at h9 h10
    exact ⟨by linear_combination h9, by linear_combination h10⟩
  · intro hq hn hb
    obtain ⟨-, -, -, -, -, -, -, -, -, -, h11, h12⟩ := hgate (i + 16)
    rw [show i + 16 + 1 = i + 17 from by omega] at h11 h12
    rw [hq, hn, hb, one_mul, sub_zero, one_mul, one_mul] at h11 h12
    exact ⟨by linear_combination h11, by linear_combination h12⟩

/-- C2 witness: the theorem applied to the concrete table `W2` with
`key_rlc_r = 7`, whose first-child row at offset 17 continues the key
accumulator stored at offset 0: `13 = 3 + 2 * 5` and `35 = 5 * 7`. -/
theorem key_rlc_level_recurrence_witness :
    (W2.key_rlc (0 + 17) = W2.key_rlc 0 + W2.modified_node (0 + 17) * W2.key_rlc_mult 0 ∧
      W2.key_rlc_mult (0 + 17) = W2.key_rlc_mult 0 * 7) ∧
    W2.key_rlc 17 = 13 ∧ W2.key_rlc_mult 17 = 35 :=
  ⟨(key_rlc_level_recurrence W2 7 branchChildren_W2 0).1 (by decide) (by decide),
    by decide, by decide⟩

/-- C3 (amended): in a branch level with EXACTLY sixteen branch-child
rows (branch-init at `a`, children at `a+1..a+16`, a non-child row at
`a+17`, `q_not_first` active throughout), the branch-children gate
forces `node_index` to be 0, 1, ..., 15 in order, `is_last_branch_child`
to 1 on the last child row and 0 on the earlier ones; `hchar` states
that the small numerals 1..15 do not vanish in `F` (true in the
production prime field).  The claim's further assertion that EVERY
node_index sequence other than 0..15 exactly once violates some
constraint is false: the constraints do not bound the number of child
rows, and a 17-child level restarting at 0 is accepted, which
`duplicate_node_index_accepted` exhibits. -/
theorem node_index_forced_with_16_children (T : Table F) (rkey : F)
    (hgate : branchChildrenGate T rkey) (a : ℕ)
    (hchar : ∀ n : ℕ, n < 16 → 1 ≤ n → ((n : ℕ) : F) ≠ 0)
    (hchild : ∀ k < 17, 1 ≤ k → T.is_branch_child (a + k) = 1)
    (hnotchild : T.is_branch_child (a + 17) = 0)
    (hinit16 : T.is_branch_init (a + 16) = 0)
    (hq : ∀ k < 18, 1 ≤ k → T.q_not_first (a + k) = 1) :
    (∀ j < 16, T.node_index (a + 1 + j) = ((j : ℕ) : F)) ∧
    T.is_last_branch_child (a + 16) = 1 ∧
    (∀ j < 15, T.is_last_branch_child (a + 1 + j) = 0) := by
  have h15 : T.node_index (a + 16) = 15 := by
    obtain ⟨-, -, -, h4, -⟩ := hgate (a + 16)
    rw [show a + 16 + 1 = a + 17 from by omega] at h4
    rw [hq 17 (by omega) (by omega), hinit16, hnotchild,
      hchild 16 (by omega) (by omega)] at h4
    have h4' : T.node_index (a + 16) - 15 = 0 := by
      have := h4
      ring_nf at this ⊢
      linear_combination this
    linear_combination h4'
  have key : ∀ d : ℕ, d ≤ 15 → T.node_index (a + 16 - d) = ((15 - d : ℕ) : F) := by
    intro d
    induction d with
    | zero =>
      intro _
      simpa using h15
    | succ d ih =>
      intro hd1
      have hd : d ≤ 14 := by omega
      have hcur := ih (by omega)
      obtain ⟨-, -, -, -, -, -, h7, -⟩ := hgate (a + 15 - d)
      rw [show a + 15 - d + 1 = a + 16 - d from by omega] at h7
      rw [show a + 16 - d = a + (16 - d) from by omega] at h7 hcur
      rw [hq (16 - d) (by omega) (by omega),
        hchild (16 - d) (by omega) (by omega), hcur] at h7
      have hne : ((15 - d : ℕ) : F) ≠ 0 := hchar (15 - d) (by omega) (by omega)
      have h7' : ((15 - d : ℕ) : F) *
          (((15 - d : ℕ) : F) - T.node_index (a + 15 - d) - 1) = 0 := by
        linear_combination h7
      rcases mul_eq_zero.mp h7' with hc | hc
      · exact absurd hc hne
      · have hcast : ((15 - d : ℕ) : F) = ((15 - (d + 1) : ℕ) : F) + 1 := by
          rw [show (15 - d : ℕ) = (15 - (d + 1)) + 1 from by omega]
          push_cast
          ring
        rw [show a + 16 - (d + 1) = a + 15 - d from by omega]
        rw [hcast] at hc
        linear_combination -hc
  have hnode : ∀ j < 16, T.node_index (a + 1 + j) = ((j : ℕ) : F) := by
    intro j hj
    have := key (15 - j) (by omega)
    rw [show a + 16 - (15 - j) = a + 1 + j from by omega,
      show 15 - (15 - j) = j from by omega] at this
    exact this
  refine ⟨hnode, ?_, ?_⟩
  · obtain ⟨-, -, -, -, -, h6, -⟩ := hgate (a + 16)
    rw [show a + 16 + 1 = a + 17 from by omega] at h6
    rw [hq 17 (by omega) (by omega), hinit16, hnotchild,
      hchild 16 (by omega) (by omega)] at h6
    have h6' : T.is_last_branch_child (a + 16) - 1 = 0 := by linear_combination h6
    linear_combination h6'
  · intro j hj
    obtain ⟨-, -, -, -, h5, -⟩ := hgate (a + j)
    rw [show a + j + 1 = a + 1 + j from by omega] at h5
    rw [show a + 1 + j = a + (j + 1) from by omega] at h5
    rw [hq (j + 1) (by omega) (by omega)] at h5
    rw [show a + (j + 1) = a + 1 + j from by omega] at h5
    rw [hnode j (by omega)] at h5
    have hne : ((j : ℕ) : F) - 15 ≠ 0 := by
      intro hzero
      have hcast : ((15 - j : ℕ) : F) = 15 - ((j : ℕ) : F) := by
        rw [Nat.cast_sub (by omega : j ≤ 15)]
        push_cast
        ring
      have : ((15 - j : ℕ) : F) = 0 := by
        rw [hcast]
        linear_combination -hzero
      exact hchar (15 - j) (by omega) (by omega) this
    have h5' : T.is_last_branch_child (a + 1 + j) * (((j : ℕ) : F) - 15) = 0 := by
      linear_combination h5
    rcases mul_eq_zero.mp h5' with hc | hc
    · exact hc
    · exact absurd hc hne

/-- C3 witness: the theorem applied to `W3`, a well-formed 16-child
level at offset 0; its eighth child carries node_index 7 and its final
child is the flagged last one. -/
theorem node_index_forced_with_16_children_witness :
    W3.node_index (0 + 1 + 7) = ((7 : ℕ) : Fq) ∧
    W3.is_last_branch_child (0 + 16) = 1 ∧
    W3.is_last_branch_child (0 + 1 + 3) = 0 := by
  have h := node_index_forced_with_16_children W3 1 branchChildren_W3 0
    (by decide) (by decide) (by decide) (by decide) (by decide)
  exact ⟨h.1 7 (by omega), h.2.1, h.2.2 3 (by omega)⟩

/-- C3 counterexample: `T17` satisfies every embedded constraint although
its branch level has seventeen branch-child rows whose node_index
sequence is 0, 0, 1, ..., 15: the second child row repeats node_index 0
instead of increasing by exactly 1, so node_index sequences other than
0..15 exactly once per branch level are NOT all rejected. -/
theorem duplicate_node_index_accepted :
    Satisfies T17 zeroKeccakTable 1 1 ∧
    T17.is_branch_init 0 = 1 ∧ T17.is_branch_child 1 = 1 ∧ T17.is_branch_child 2 = 1 ∧
    T17.q_not_first 2 = 1 ∧ T17.node_index 1 = 0 ∧ T17.node_index 2 = 0 ∧
    T17.node_index 2 ≠ T17.node_index 1 + 1 :=
  ⟨satisfies_T17, by decide, by decide, by decide, by decide, by decide, by decide,
    by decide⟩

/-- C4: for every table satisfying the general-constraints gate, on an
enabled branch-child row whose node_index differs from modified_node,
the S-side bytes (`s_rlp1`, `s_rlp2` and all 32 `s_advices` cells) are
forced to equal the corresponding C-side bytes cell for cell, so a table
that changes any single off-path byte on one side only is
unsatisfiable. -/
theorem off_path_s_eq_c (T : Table F) (hgate : generalGate T) (i : ℕ)
    (hq : T.q_enable i = 1) (hb : T.is_branch_child i = 1)
    (hne : T.node_index i ≠ T.modified_node i) :
    T.s_rlp1 i = T.c_rlp1 i ∧ T.s_rlp2 i = T.c_rlp2 i ∧
    ∀ k < 32, T.s_advices k i = T.c_advices k i := by
  obtain ⟨-, -, -, -, -, -, -, -, -, -, -, -, -, h14, h15, -, -, h18⟩ := hgate i
  have hd : T.node_index i - T.modified_node i ≠ 0 := sub_ne_zero.mpr hne
  refine ⟨?_, ?_, ?_⟩
  · rw [hq, hb, one_mul, one_mul] at h14
    rcases mul_eq_zero.mp h14 with hc | hc
    · exact sub_eq_zero.mp hc
    · exact absurd hc hd
  · rw [hq, hb, one_mul, one_mul] at h15
    rcases mul_eq_zero.mp h15 with hc | hc
    · exact sub_eq_zero.mp hc
    · exact absurd hc hd
  · intro k hk
    have h := h18 k hk
    rw [hq, hb, one_mul, one_mul] at h
    rcases mul_eq_zero.mp h with hc | hc
    · exact sub_eq_zero.mp hc
    · exact absurd hc hd

/-- C4 witness: the theorem applied to `W4`, whose single enabled
branch-child row sits off the modified path. -/
theorem off_path_s_eq_c_witness :
    W4.s_rlp1 0 = W4.c_rlp1 0 ∧ W4.s_rlp2 0 = W4.c_rlp2 0 ∧
    W4.s_advices 5 0 = W4.c_advices 5 0 := by
  have h := off_path_s_eq_c W4 generalGate_W4 0 (by decide) (by decide) (by decide)
  exact ⟨h.1, h.2.1, h.2.2 5 (by omega)⟩

/-- C5: the branch-init accumulator, in the assignment and in the gate.
Assignment (`branchInitAcc`, the computation of `MPTConfig::assign`):
when the first RLP prefix byte is 249 (three-byte form) the accumulator
is `first + second*r + third*r^2` with multiplier `r^3`, and when it is
248 (two-byte form) it is `first + second*r` with multiplier `r^2`, on
the S side (`BRANCH_0_S_START`) and the C side (`BRANCH_0_C_START`)
alike.  Gate (the "branch init accumulator" gate): on an enabled
branch-init row the same equalities are enforced on `branch_acc_s` /
`branch_acc_c`, keyed on the three-byte indicator (the `s_rlp2` cell)
and the two-byte indicator (the `s_rlp1` cell) that signal the two
forms. -/
theorem branch_init_rlp_accumulator (r : F) (row : List ℕ) (T : Table F)
    (hgate : branchInitAccGate T r) (i : ℕ) :
    (row.getD BRANCH_0_S_START 0 = 249 →
      branchInitAcc r row BRANCH_0_S_START =
        (((row.getD 2 0 : ℕ) : F) + ((row.getD 3 0 : ℕ) : F) * r +
          ((row.getD 4 0 : ℕ) : F) * r ^ 2, r ^ 3)) ∧
    (row.getD BRANCH_0_S_START 0 = 248 →
      branchInitAcc r row BRANCH_0_S_START =
        (((row.getD 2 0 : ℕ) : F) + ((row.getD 3 0 : ℕ) : F) * r, r ^ 2)) ∧
    (row.getD BRANCH_0_C_START 0 = 249 →
      branchInitAcc r row BRANCH_0_C_START =
        (((row.getD 5 0 : ℕ) : F) + ((row.getD 6 0 : ℕ) : F) * r +
          ((row.getD 7 0 : ℕ) : F) * r ^ 2, r ^ 3)) ∧
    (row.getD BRANCH_0_C_START 0 = 248 →
      branchInitAcc r row BRANCH_0_C_START =
        (((row.getD 5 0 : ℕ) : F) + ((row.getD 6 0 : ℕ) : F) * r, r ^ 2)) ∧
    (T.q_enable i = 1 → T.is_branch_init i = 1 → T.s_rlp2 i = 1 →
      T.branch_acc_s i = T.s_advices 0 i + T.s_advices 1 i * r + T.s_advices 2 i * r ^ 2 ∧
      T.branch_mult_s i = r ^ 3 ∧
      T.branch_acc_c i = T.s_advices 3 i + T.s_advices 4 i * r + T.s_advices 5 i * r ^ 2 ∧
      T.branch_mult_c i = r ^ 3) ∧
    (T.q_enable i = 1 → T.is_branch_init i = 1 → T.s_rlp1 i = 1 →
      T.branch_acc_s i = T.s_advices 0 i + T.s_advices 1 i * r ∧
      T.branch_mult_s i = r ^ 2 ∧
      T.branch_acc_c i = T.s_advices 3 i + T.s_advices 4 i * r ∧
      T.branch_mult_c i = r ^ 2) := by
  refine ⟨?_, ?_, ?_, ?_, ?_, ?_⟩
  · intro h
    simp only [BRANCH_0_S_START] at h
    simp only [branchInitAcc, BRANCH_0_S_START, h]
    rw [if_pos trivial, Prod.mk.injEq]
    refine ⟨?_, by ring⟩
    simp only [show (2 + 1 : ℕ) = 3 from rfl, show (2 + 2 : ℕ) = 4 from rfl]
    ring
  · intro h
    simp only [BRANCH_0_S_START] at h
    simp only [branchInitAcc, BRANCH_0_S_START, h]
    rw [if_neg (by norm_num), Prod.mk.injEq]
    exact ⟨by simp only [show (2 + 1 : ℕ) = 3 from rfl], by ring⟩
  · intro h
    simp only [BRANCH_0_C_START] at h
    simp only [branchInitAcc, BRANCH_0_C_START, h]
    rw [if_pos trivial, Prod.mk.injEq]
    refine ⟨?_, by ring⟩
    simp only [show (5 + 1 : ℕ) = 6 from rfl, show (5 + 2 : ℕ) = 7 from rfl]
    ring
  · intro h
    simp only [BRANCH_0_C_START] at h
    simp only [branchInitAcc, BRANCH_0_C_START, h]
    rw [if_neg (by norm_num), Prod.mk.injEq]
    exact ⟨by simp only [show (5 + 1 : ℕ) = 6 from rfl], by ring⟩
  · intro h1 h2 h3
    obtain ⟨-, -, -, -, g5, g6, g7, g8⟩ := hgate i
    rw [h1, h2, h3, one_mul, one_mul, one_mul] at g5 g6 g7 g8
    exact ⟨by linear_combination -g5, by linear_combination -g6,
      by linear_combination -g7, by linear_combination -g8⟩
  · intro h1 h2 h3
    obtain ⟨g1, g2, g3, g4, -⟩ := hgate i
    rw [h1, h2, h3, one_mul, one_mul, one_mul] at g1 g2 g3 g4
    exact ⟨by linear_combination -g1, by linear_combination -g2,
      by linear_combination -g3, by linear_combination -g4⟩

/-- C5 witness: the theorem applied with `r = 2` to the three-byte row
`row249`, the two-byte row `row248`, and the concrete table `W5`, whose
branch-init row satisfies the gate (`575 = 249 + 1*2 + 81*4`,
multiplier 8). -/
theorem branch_init_rlp_accumulator_witness :
    branchInitAcc (2 : Fq) row249 BRANCH_0_S_START =
      (((row249.getD 2 0 : ℕ) : Fq) + ((row249.getD 3 0 : ℕ) : Fq) * 2 +
        ((row249.getD 4 0 : ℕ) : Fq) * 2 ^ 2, 2 ^ 3) ∧
    branchInitAcc (2 : Fq) row248 BRANCH_0_S_START =
      (((row248.getD 2 0 : ℕ) : Fq) + ((row248.getD 3 0 : ℕ) : Fq) * 2, 2 ^ 2) ∧
    branchInitAcc (2 : Fq) row249 BRANCH_0_C_START =
      (((row249.getD 5 0 : ℕ) : Fq) + ((row249.getD 6 0 : ℕ) : Fq) * 2 +
        ((row249.getD 7 0 : ℕ) : Fq) * 2 ^ 2, 2 ^ 3) ∧
    W5.branch_acc_s 0 = W5.s_advices 0 0 + W5.s_advices 1 0 * 2 + W5.s_advices 2 0 * 2 ^ 2 ∧
    W5.branch_mult_s 0 = 2 ^ 3 ∧
    W5.branch_acc_c 0 = W5.s_advices 3 0 + W5.s_advices 4 0 * 2 + W5.s_advices 5 0 * 2 ^ 2 := by
  have h249S := (branch_init_rlp_accumulator (2 : Fq) row249 W5 branchInitAccGate_W5 0).1
    (by decide)
  have h248S := (branch_init_rlp_accumulator (2 : Fq) row248 W5 branchInitAccGate_W5 0).2.1
    (by decide)
  have h249C := (branch_init_rlp_accumulator (2 : Fq) row249 W5 branchInitAccGate_W5 0).2.2.1
    (by decide)
  have hg := (branch_init_rlp_accumulator (2 : Fq) row249 W5 branchInitAccGate_W5 0).2.2.2.2.1
    (by decide) (by decide) (by decide)
  exact ⟨h249S, h248S, h249C, hg.1, hg.2.1, hg.2.2.1⟩

/-- C6: for every set of chip columns satisfying the account-leaf
storage/codehash gate, on an enabled row the constraint forces
`acc(cur)` to equal `acc(prev) + s_rlp2 * acc_mult(prev)` plus the 32
`s_advices` bytes times successive powers of `r`, plus `c_rlp2` times
the next power, plus the 32 `c_advices` bytes times the following
powers: the RLC continuation over the storage-root length prefix, the
32 storage-root bytes, the code-hash length prefix and the 32 code-hash
bytes, started from the previous row's accumulator and multiplier. -/
theorem account_leaf_storage_codehash_rlc (C : StorageCodehashCols F) (r : F) (i : ℕ)
    (hgate : accountLeafStorageCodehashGate C r)
    (hq : C.q_enable (i + 1) = 1) :
    C.acc (i + 1) =
      C.acc i + C.s_rlp2 (i + 1) * C.acc_mult i +
        (∑ k ∈ Finset.range 32, C.s_advices k (i + 1) * (C.acc_mult i * r ^ (k + 1))) +
        C.c_rlp2 (i + 1) * (C.acc_mult i * r ^ 33) +
        ∑ k ∈ Finset.range 32, C.c_advices k (i + 1) * (C.acc_mult i * r ^ (34 + k)) := by
  have h := hgate i
  rw [hq, one_mul, sub_eq_zero] at h
  rw [← h, storageCodehashExpr, foldl_rlcStep_fst]
  set mapS := (List.range 32).map fun k => C.s_advices k (i+1) with hS
  set mapC := (List.range 32).map fun k => C.c_advices k (i+1) with hC
  set L := C.s_rlp2 (i+1) :: (mapS ++ C.c_rlp2 (i+1) :: mapC) with hL
  have hlenS : mapS.length = 32 := by simp [hS]
  have hlen : L.length = 66 := by simp [hL, hS, hC]
  rw [hlen]
  rw [show (66 : ℕ) = 34 + 32 from rfl, Finset.sum_range_add,
    show (34 : ℕ) = 33 + 1 from rfl, Finset.sum_range_succ,
    show (33 : ℕ) = 1 + 32 from rfl, Finset.sum_range_add,
    Finset.sum_range_one]
  have e0 : L.getD 0 0 = C.s_rlp2 (i+1) := List.getD_cons_zero
  have e1 : ∀ k, k < 32 → L.getD (1 + k) 0 = C.s_advices k (i+1) := by
    intro k hk
    rw [hL, Nat.add_comm 1 k, List.getD_cons_succ,
      getD_append_left _ _ _ (by rw [hlenS]; exact hk), hS,
      getD_map_range _ _ _ hk]
  have e2 : L.getD 33 0 = C.c_rlp2 (i+1) := by
    rw [hL, show (33 : ℕ) = 32 + 1 from rfl, List.getD_cons_succ,
      getD_append_right _ _ _ (by rw [hlenS]), hlenS]
    simp
  have e3 : ∀ k, k < 32 → L.getD (34 + k) 0 = C.c_advices k (i+1) := by
    intro k hk
    rw [hL, show 34 + k = (33 + k) + 1 from by omega, List.getD_cons_succ,
      getD_append_right _ _ _ (by rw [hlenS]; omega), hlenS,
      show 33 + k - 32 = k + 1 from by omega, List.getD_cons_succ, hC,
      getD_map_range _ _ _ hk]
  have hs1 : (∑ k ∈ Finset.range 32, L.getD (1 + k) 0 * (C.acc_mult i * r ^ (1 + k)))
      = ∑ k ∈ Finset.range 32, C.s_advices k (i+1) * (C.acc_mult i * r ^ (k + 1)) :=
    Finset.sum_congr rfl fun k hk => by
      rw [e1 k (Finset.mem_range.mp hk), Nat.add_comm 1 k]
  have hs2 : (∑ k ∈ Finset.range 32, L.getD (34 + k) 0 * (C.acc_mult i * r ^ (34 + k)))
      = ∑ k ∈ Finset.range 32, C.c_advices k (i+1) * (C.acc_mult i * r ^ (34 + k)) :=
    Finset.sum_congr rfl fun k hk => by
      rw [e3 k (Finset.mem_range.mp hk)]
  rw [e0, e2, hs1, hs2]
  ring

/-- C6 witness: the theorem applied to `W6` with `r = 1`: the enabled
row's accumulator equals `5 + 3 + 4 = 12`. -/
theorem account_leaf_storage_codehash_rlc_witness : W6.acc (0 + 1) = 12 := by
  have h := account_leaf_storage_codehash_rlc W6 1 0 accountGate_W6 (by decide)
  rw [h]
  decide

/-- C7: in the leaf-value hash lookup of `LeafValueChip::configure`,
every input expression carries the factors `(1 - sel)` (with `sel` read
at rotation -4) and `(1 - is_branch_placeholder)` (read at rotation -18
on the S side and -20 on the C side): whenever `sel = 1` or
`is_branch_placeholder = 1` the whole input tuple collapses to the
all-zero row, so the hash check is skipped rather than failing, and in
the active case (`sel = 0`, `is_branch_placeholder = 0`, chip enabled)
the tuple of the recomputed leaf RLC and the four digest words read at
rotation -4 must be a row of the hash lookup table. -/
theorem leaf_value_lookup_bypass (C : LeafValueCols F) (tbl : List (KeccakTuple F))
    (is_s : Bool) (r : F) (hlk : leafValueLookup C tbl is_s r) (i : ℕ) :
    (C.sel (i + rotPlaceholderBranch is_s - 4) = 1 →
      leafValueInput C is_s r i = (0, 0, 0, 0, 0)) ∧
    (C.is_branch_placeholder i = 1 →
      leafValueInput C is_s r i = (0, 0, 0, 0, 0)) ∧
    (C.sel (i + rotPlaceholderBranch is_s - 4) = 0 →
      C.is_branch_placeholder i = 0 →
      C.q_enable (i + rotPlaceholderBranch is_s) = 1 →
      (leafValueRlc C r (i + rotPlaceholderBranch is_s),
        C.sc_keccak 0 (i + rotPlaceholderBranch is_s - 4),
        C.sc_keccak 1 (i + rotPlaceholderBranch is_s - 4),
        C.sc_keccak 2 (i + rotPlaceholderBranch is_s - 4),
        C.sc_keccak 3 (i + rotPlaceholderBranch is_s - 4)) ∈ tbl) := by
  refine ⟨?_, ?_, ?_⟩
  · intro h
    simp [leafValueInput, h]
  · intro h
    simp [leafValueInput, h]
  · intro hsel hpb hq
    have h := hlk i
    simp only [leafValueInput, hsel, hpb, hq, one_mul, sub_zero, mul_one] at h
    exact h

/-- C7 witness: the theorem applied to the S-side chip columns `W7` with
`r = 1`: the `sel = 1` row and the `is_branch_placeholder = 1` row
collapse to the zero tuple, and the active row's pair
`(7, 1, 2, 3, 4)` is in `tblW7`. -/
theorem leaf_value_lookup_bypass_witness :
    leafValueInput W7 true 1 1 = (0, 0, 0, 0, 0) ∧
    leafValueInput W7 true 1 5 = (0, 0, 0, 0, 0) ∧
    (leafValueRlc W7 1 (0 + rotPlaceholderBranch true),
      W7.sc_keccak 0 (0 + rotPlaceholderBranch true - 4),
      W7.sc_keccak 1 (0 + rotPlaceholderBranch true - 4),
      W7.sc_keccak 2 (0 + rotPlaceholderBranch true - 4),
      W7.sc_keccak 3 (0 + rotPlaceholderBranch true - 4)) ∈ tblW7 :=
  ⟨(leaf_value_lookup_bypass W7 tblW7 true 1 leafValueLookup_W7 1).1 (by decide),
    (leaf_value_lookup_bypass W7 tblW7 true 1 leafValueLookup_W7 5).2.1 (by decide),
    (leaf_value_lookup_bypass W7 tblW7 true 1 leafValueLookup_W7 0).2.2
      (by decide) (by decide) (by decide)⟩

/-- C8 (amended): the challenge scalars of `MPTConfig::configure` are
`branch_acc_r = 1` (fixed) and `key_rlc_r` = the value drawn from the
local `F::rand()` call, and assignment is a pure function of the witness
and those scalars: two runs whose random draws coincide produce
identical tables.  The claim that configuration plus assignment run
twice always produce byte-identical contents with no locally sampled
randomness is false, which `configure_rand_nondeterminism` exhibits. -/
theorem assign_deterministic_given_scalars :
    (∀ r : F, (configure r).branch_acc_r = 1 ∧ (configure r).key_rlc_r = r) ∧
    ∀ (r rr : F) (w : List (List ℕ)), r = rr →
      assignMPT (configure r) w = assignMPT (configure rr) w :=
  ⟨fun _ => ⟨rfl, rfl⟩, fun _ _ w h => by rw [h]⟩

/-- C8 witness: the theorem applied at draw 5 and witness `w0`. -/
theorem assign_deterministic_given_scalars_witness :
    (configure (5 : Fq)).branch_acc_r = 1 ∧
    assignMPT (configure (5 : Fq)) w0 = assignMPT (configure 5) w0 :=
  ⟨(assign_deterministic_given_scalars.1 5).1,
    assign_deterministic_given_scalars.2 5 5 w0 rfl⟩

/-- C8 counterexample: two runs of configuration plus assignment on the
same witness `w0` whose `F::rand()` draws differ (2 versus 3) produce
different table contents (the `key_rlc_mult` cell of the first
branch-child row is the drawn scalar), so table construction is not a
function of the witness alone and `key_rlc_r` is sampled locally inside
`configure` rather than supplied. -/
theorem configure_rand_nondeterminism :
    assignMPT (configure (2 : Fq)) w0 ≠ assignMPT (configure 3) w0 := by decide

/-- C9 (amended): the general-constraints gate forces `is_modified` to
be boolean on every enabled row and forces `node_index = modified_node`
whenever `is_modified = 1` on a branch-child row; and every row emitted
by `MPTConfig::assign` carries
`is_modified = (modified_node == node_index)` as `assign_row` computes
it.  The claim's converse direction for satisfying tables — that
`is_modified` must be 1 whenever `node_index = modified_node` — is not
enforced by any constraint, which
`is_modified_not_forced_on_modified_child` exhibits. -/
theorem is_modified_constraint_vs_assignment :
    (∀ T : Table F, generalGate T → ∀ i, T.q_enable i = 1 → T.is_branch_child i = 1 →
      (T.is_modified i = 0 ∨ T.is_modified i = 1) ∧
      (T.is_modified i = 1 → T.node_index i = T.modified_node i)) ∧
    (∀ (cfg : MPTCfg F) (w : List (List ℕ)), ∀ a ∈ assignMPT cfg w,
      ∃ m n : ℕ, a.modified_node = ((m : ℕ) : F) ∧ a.node_index = ((n : ℕ) : F) ∧
        a.is_modified = if m = n then 1 else 0) := by
  constructor
  · intro T hgate i hq hb
    obtain ⟨-, -, -, -, -, -, -, -, -, -, -, -, -, -, -, h16, h17, -⟩ := hgate i
    rw [hq, one_mul] at h16
    rw [hq, hb, one_mul, one_mul] at h17
    constructor
    · rcases mul_eq_zero.mp h16 with hc | hc
      · exact Or.inl hc
      · exact Or.inr (by linear_combination -hc)
    · intro hm
      rw [hm, one_mul] at h17
      exact sub_eq_zero.mp h17
  · intro cfg w a ha
    exact mptGo_is_modified cfg w _ 0 initLoopState a ha

/-- C9 witness: the constraint direction applied to `W4` and the
assignment direction applied to the second row produced from `w0`. -/
theorem is_modified_constraint_vs_assignment_witness :
    ((W4.is_modified 0 = 0 ∨ W4.is_modified 0 = 1) ∧
      (W4.is_modified 0 = 1 → W4.node_index 0 = W4.modified_node 0)) ∧
    (∃ m n : ℕ,
      ((assignMPT (configure (1 : Fq)) w0).getD 1 blankRow).modified_node = ((m : ℕ) : Fq) ∧
      ((assignMPT (configure (1 : Fq)) w0).getD 1 blankRow).node_index = ((n : ℕ) : Fq) ∧
      ((assignMPT (configure (1 : Fq)) w0).getD 1 blankRow).is_modified =
        if m = n then 1 else 0) := by
  constructor
  · exact is_modified_constraint_vs_assignment.1 W4 generalGate_W4 0 (by decide) (by decide)
  · exact is_modified_constraint_vs_assignment.2 (configure 1) w0 _
      (getD_mem _ 1 _ (by decide))

/-- C9 counterexample: `T17` satisfies every embedded constraint
although its branch-child row 1 has `node_index = modified_node` yet
`is_modified = 0`: the constraints force only the direction
`is_modified = 1 → node_index = modified_node`, not the claimed
equivalence. -/
theorem is_modified_not_forced_on_modified_child :
    Satisfies T17 zeroKeccakTable 1 1 ∧ T17.q_enable 1 = 1 ∧
    T17.is_branch_child 1 = 1 ∧ T17.node_index 1 = T17.modified_node 1 ∧
    T17.is_modified 1 = 0 :=
  ⟨satisfies_T17, by decide, by decide, by decide, by decide⟩

/-- C10: during assignment, `not_first_level` switches from 0 to 1 only
when the filtered (non-to-be-hashed) row at index exactly 17 or exactly
20 carries the branch-init discriminant 0 — for every witness whose
filtered rows never satisfy that condition, every emitted row carries
`not_first_level = 0`; and on any table whose `not_first_level` column
is identically zero, both branch-hash lookup input tuples collapse to
the all-zero row and both `not_first_level`-gated `key_rlc` recurrence
equations hold identically, i.e. every constraint and lookup gated by
`not_first_level` is disabled for the entire table. -/
theorem not_first_level_switch_and_gating :
    (∀ (cfg : MPTCfg F) (w : List (List ℕ)),
      (∀ j < (w.filter fun rr => lastByte rr ≠ 5).length,
        ¬((j = 17 ∨ j = 20) ∧ lastByte ((w.filter fun rr => lastByte rr ≠ 5).getD j []) = 0)) →
      ∀ a ∈ assignMPT cfg w, a.not_first_level = 0) ∧
    (∀ (T : Table F) (rkey : F), (∀ i, T.not_first_level i = 0) → ∀ i,
      branchLookupSInput T i = (0, 0, 0, 0, 0) ∧
      branchLookupCInput T i = (0, 0, 0, 0, 0) ∧
      T.not_first_level (i + 17) * T.is_branch_init (i + 16) *
        (T.key_rlc (i + 17) - T.key_rlc i - T.modified_node (i + 17) * T.key_rlc_mult i) = 0 ∧
      T.not_first_level (i + 17) * T.is_branch_init (i + 16) *
        (T.key_rlc_mult (i + 17) - T.key_rlc_mult i * rkey) = 0) := by
  constructor
  · intro cfg w hno a ha
    refine mptGo_nfl_zero cfg w _ 0 initLoopState rfl ?_ a ha
    intro j hj
    rw [Nat.zero_add]
    exact hno j hj
  · intro T rkey hn i
    refine ⟨?_, ?_, ?_, ?_⟩ <;> simp [branchLookupSInput, branchLookupCInput, hn]

/-- C10 witness: the witness `w0` has 17 filtered rows (indices 0..16),
so its assignment keeps `not_first_level = 0` everywhere; and on `T17`
(whose `not_first_level` column is identically zero) the S-side lookup
input collapses to the zero tuple. -/
theorem not_first_level_switch_and_gating_witness :
    ((assignMPT (configure (1 : Fq)) w0).getD 0 blankRow).not_first_level = 0 ∧
    branchLookupSInput T17 0 = (0, 0, 0, 0, 0) := by
  constructor
  · exact not_first_level_switch_and_gating.1 (configure 1) w0 (by decide) _
      (getD_mem _ 0 _ (by decide))
  · exact (not_first_level_switch_and_gating.2 T17 1 (fun _ => rfl) 0).1

end Mpt
